import Mathlib

/-!
Shallow embedding of the UNSW-HandBook backend loader (Rust) in Lean 4.

Source files embedded (under src/backend/src/data/loader/src/):
  utlis.rs         - CourseCode / ProgramCode and their equality semantics
  requirements.rs  - cleaning pass, tokenizer, recursive-descent parser,
                     requirement expression tree and its evaluator
  course.rs        - Course, CourseManager, is_eligible
  program.rs       - Program / Specialisation structures and the
                     back-populate pass
  search.rs        - program structure listing, course pools, SearchPool

Rust `char` is modelled by Lean `Char`; `is_ascii_alphabetic` by
`Char.isAlpha` and `is_numeric` by `Char.isDigit` (the inputs of this
code base are ASCII, where the two agree).  Rust `u8` counters are
modelled by `Nat` (all relevant values are 0..=255 and no arithmetic
overflows a u8 anywhere in the embedded code).  `HashMap`/`HashSet` are
modelled by association lists / lists: only membership matters to the
embedded operations.  Fallible Rust code returns `Option`/`Except`.
-/

set_option maxHeartbeats 4000000
set_option maxRecDepth 8000
set_option linter.dupNamespace false

namespace HB

/-- Embeds `struct CourseCode` (utlis.rs): 4 school slots, 4 numeric
slots, and the two live counters.  Slots are kept as `List Char` of
length 4 (every constructor of the Rust API builds arrays of length 4). -/
structure CourseCode where
  school_code : List Char
  course_code : List Char
  num_of_match_school : Nat
  num_of_match_code : Nat
deriving DecidableEq

/-- Embeds `impl Display for CourseCode`: concatenation of both segments. -/
def CourseCode.toStr (c : CourseCode) : String :=
  String.mk (c.school_code ++ c.course_code)

/-- Loop of `CourseCode::parse` (utlis.rs:281-306): for each indexed char,
positions 0..3 capture ASCII-alphabetic chars into the school segment
(silently skipping others), positions from 4 on must be numeric and are
captured into the number segment. -/
def CourseCode.parseGo : Nat → List Char → List Char → List Char → Nat → Nat → Option CourseCode
  | _, [], school, course, ns, nc => some ⟨school, course, ns, nc⟩
  | i, c :: rest, school, course, ns, nc =>
    if i < 4 then
      if c.isAlpha then CourseCode.parseGo (i + 1) rest (school.set i c) course (ns + 1) nc
      else CourseCode.parseGo (i + 1) rest school course ns nc
    else
      if c.isDigit then CourseCode.parseGo (i + 1) rest school (course.set (i - 4) c) ns (nc + 1)
      else none

/-- Embeds `CourseCode::parse` (utlis.rs:281-306). -/
def CourseCode.parse (s : List Char) : Option CourseCode :=
  CourseCode.parseGo 0 s ("....".toList) ("####".toList) 0 0

/-- Loop of `CourseCode::from_str` (utlis.rs:327-344): positions 0..3 are
copied unconditionally, positions 4..7 must be numeric. -/
def CourseCode.from_strGo : Nat → List Char → List Char → List Char → Option CourseCode
  | _, [], school, course => some ⟨school, course, 4, 4⟩
  | i, c :: rest, school, course =>
    if i < 4 then CourseCode.from_strGo (i + 1) rest (school.set i c) course
    else if c.isDigit then CourseCode.from_strGo (i + 1) rest school (course.set (i - 4) c)
    else none

/-- Embeds `CourseCode::from_str` (utlis.rs:327-344): exactly 8 chars,
last four numeric, counters (4,4). -/
def CourseCode.from_str (s : List Char) : Option CourseCode :=
  if s.length = 8 then CourseCode.from_strGo 0 s ("....".toList) ("####".toList) else none

/-- Embeds `CourseCode::is_code` (utlis.rs:347-349). -/
def CourseCode.is_code (s : List Char) : Bool :=
  (CourseCode.from_str s).isSome

/-- Embeds `CourseCode::is_pattern` (utlis.rs:247-249). -/
def CourseCode.is_pattern (c : CourseCode) : Bool :=
  c.num_of_match_school != 4 || c.num_of_match_code != 4

/-- Embeds `CourseCode::is_course_code` (utlis.rs:252-254). -/
def CourseCode.is_course_code (c : CourseCode) : Bool :=
  c.num_of_match_school == 4 && c.num_of_match_code == 4

/-- Embeds `CourseCode::level` (utlis.rs:362-364): first numeric slot as a
digit.  The Rust code `to_digit(10).unwrap()` panics on a non-digit slot;
this total model returns the same value on every digit slot (the only
documented precondition) and an unspecified junk value otherwise. -/
def CourseCode.level (c : CourseCode) : Nat :=
  match c.course_code with
  | [] => 0
  | d :: _ => d.toNat - '0'.toNat

/-- Embeds `impl PartialEq for CourseCode` (utlis.rs:435-454): if both
counters coincide the display strings are compared; otherwise each
segment is compared slot-wise, truncated to the LEFT operand's (self's)
live counter. -/
def CourseCode.beq (a b : CourseCode) : Bool :=
  if a.num_of_match_school == b.num_of_match_school
      && a.num_of_match_code == b.num_of_match_code then
    a.toStr == b.toStr
  else
    ((a.school_code.zip b.school_code).take a.num_of_match_school).all (fun p => p.1 == p.2)
      && ((a.course_code.zip b.course_code).take a.num_of_match_code).all (fun p => p.1 == p.2)

/-- Embeds `CourseCode::is_match` (utlis.rs:424-427): delegates to `eq`. -/
def CourseCode.is_match (a b : CourseCode) : Bool :=
  a.beq b

/-- The refill loop used twice by `CourseCode::adjust_pattern`
(utlis.rs:393-412): a fresh filler array receives the first `n` old
slots; every later slot is the filler character. -/
def CourseCode.refill (fill : Char) : Nat → List Char → List Char
  | _, [] => []
  | n, c :: rest => (if 0 < n then c else fill) :: CourseCode.refill fill (n - 1) rest

/-- Embeds `CourseCode::adjust_pattern` (utlis.rs:383-413).  Note the
early return: if either argument exceeds 4 the code is returned
UNCHANGED (the arguments are not clamped). -/
def CourseCode.adjust_pattern (c : CourseCode) (ns nc : Nat) : CourseCode :=
  if 4 < ns ∨ 4 < nc then c
  else if c.num_of_match_code = nc ∧ c.num_of_match_school = ns then c
  else
    let c1 :=
      if c.num_of_match_code ≠ nc then
        { c with course_code := CourseCode.refill '#' nc c.course_code,
                 num_of_match_code := nc }
      else c
    if c1.num_of_match_school ≠ ns then
      { c1 with school_code := CourseCode.refill '.' ns c1.school_code,
                num_of_match_school := ns }
    else c1

/-- Embeds `struct ProgramCode` (utlis.rs): exactly four numeric chars. -/
structure ProgramCode where
  code : List Char
deriving DecidableEq

/-- Embeds `impl Display for ProgramCode`. -/
def ProgramCode.toStr (p : ProgramCode) : String :=
  String.mk p.code

/-- Embeds `ProgramCode::from_str` (utlis.rs:69-81): exactly 4 chars, all
numeric. -/
def ProgramCode.from_str (s : List Char) : Option ProgramCode :=
  if s.length = 4 ∧ s.all Char.isDigit then some ⟨s⟩ else none

/-- Embeds `ProgramCode::is_code` (utlis.rs:84-86). -/
def ProgramCode.is_code (s : List Char) : Bool :=
  (ProgramCode.from_str s).isSome

/-- Embeds `impl PartialEq for ProgramCode` (utlis.rs:25-29): zipped
slot-wise comparison. -/
def ProgramCode.beq (a b : ProgramCode) : Bool :=
  (a.code.zip b.code).all (fun p => p.1 == p.2)

instance : BEq ProgramCode := ⟨ProgramCode.beq⟩

/-! ## requirements.rs: token types -/

/-- Embeds `enum Keyword` (requirements.rs). -/
inductive Keyword where
  | LEVEL
  | UOC
  | WAM
deriving DecidableEq

/-- Embeds `enum Operator` (requirements.rs). -/
inductive Operator where
  | OR
  | AND
deriving DecidableEq

/-- Embeds `enum Preposition` (requirements.rs). -/
inductive Preposition where
  | AT
  | FROM
  | OF
deriving DecidableEq

/-- Embeds `enum Code` (requirements.rs). -/
inductive Code where
  | COURSE (c : CourseCode)
  | PROGRAM (p : ProgramCode)
deriving DecidableEq

/-- Embeds `enum Bracket` (requirements.rs). -/
inductive Bracket where
  | OPEN
  | CLOSE
deriving DecidableEq

/-- Embeds `enum Token` (requirements.rs). -/
inductive Token where
  | COMMA
  | BRACKET (b : Bracket)
  | NUMBER (n : Nat)
  | KEYWORD (k : Keyword)
  | OPERATOR (o : Operator)
  | PREPOSITION (p : Preposition)
  | CODE (c : Code)
  | TEXT (t : String)
deriving DecidableEq

/-! ## requirements.rs: the cleaning pass -/

/-- `str::trim` on a char list: drop ASCII/Unicode whitespace from both
ends. -/
def trimL (s : List Char) : List Char :=
  ((s.dropWhile Char.isWhitespace).reverse.dropWhile Char.isWhitespace).reverse

/-- Non-overlapping left-to-right substring replacement, the semantics of
Rust `str::replace`.  The first argument counts characters still to be
skipped after a pattern was consumed (structural single pass). -/
def replaceGo (pat rep : List Char) : Nat → List Char → List Char
  | _, [] => []
  | skip + 1, _ :: rest => replaceGo pat rep skip rest
  | 0, c :: rest =>
    if pat.isPrefixOf (c :: rest) then
      rep ++ replaceGo pat rep (pat.length - 1) rest
    else
      c :: replaceGo pat rep 0 rest

/-- Rust `str::replace(pat, rep)` for a non-empty pattern. -/
def replaceL (s pat rep : List Char) : List Char :=
  replaceGo pat rep 0 s

/-- `str::lines`-style split of a char list at newline characters.  (Rust
`lines()` additionally drops one trailing empty segment after a final
newline; an empty segment can never carry a prerequisite label, so the
cleaning pass below is unaffected.) -/
def splitNl : List Char → List (List Char)
  | [] => [[]]
  | c :: rest =>
    if c = '\n' then [] :: splitNl rest
    else
      match splitNl rest with
      | [] => [[c]]
      | h :: t => (c :: h) :: t

/-- The chain of replacements of `Requirements::clean`
(requirements.rs:237-246), applied to the trimmed raw string in the
source order. -/
def Requirements.cleanReplacements (raw : List Char) : List Char :=
  let s0 := trimL raw
  let s1 := replaceL s0 ("[".toList) (" [ ".toList)
  let s2 := replaceL s1 ("]".toList) (" ] ".toList)
  let s3 := replaceL s2 ("(".toList) (" ( ".toList)
  let s4 := replaceL s3 (")".toList) (" ) ".toList)
  let s5 := replaceL s4 (",".toList) (" , ".toList)
  let s6 := replaceL s5 (".".toList) (" ".toList)
  let s7 := replaceL s6 ("+".toList) ([])
  replaceL s7 ("<br/>".toList) ("\n".toList)

/-- One trimmed line run through the four `extract_prerequisite!` macro
invocations of `Requirements::clean` (requirements.rs:249-252), in the
source order: `some` extracted remainder on a match, `none` otherwise. -/
def Requirements.extractLine (t : List Char) : Option (List Char) :=
  if ("Pre-requisites:".toList).isPrefixOf t then
    some (trimL (replaceL t ("Pre-requisites:".toList) []))
  else if ("Pre-requisite:".toList).isPrefixOf t then
    some (trimL (replaceL t ("Pre-requisite:".toList) []))
  else if ("Prerequisites:".toList).isPrefixOf t then
    some (trimL (replaceL t ("Prerequisites:".toList) []))
  else if ("Prerequisite:".toList).isPrefixOf t then
    some (trimL (replaceL t ("Prerequisite:".toList) []))
  else none

/-- The line loop of `Requirements::clean` (requirements.rs:247-254): the
first line whose trimmed form starts with a recognised label yields the
extracted remainder; otherwise the empty string. -/
def Requirements.findLine : List (List Char) → List Char
  | [] => []
  | l :: rest =>
    match Requirements.extractLine (trimL l) with
    | some r => r
    | none => Requirements.findLine rest

/-- Embeds `Requirements::clean` (requirements.rs:236-255). -/
def Requirements.clean (raw : String) : String :=
  String.mk (Requirements.findLine (splitNl (Requirements.cleanReplacements raw.toList)))

/-! ## requirements.rs: the tokenizer -/

/-- `split_ascii_whitespace` on a char list (accumulator holds the
current word reversed). -/
def wordsGo (acc : List Char) : List Char → List String
  | [] => if acc.isEmpty then [] else [String.mk acc.reverse]
  | c :: rest =>
    if c.isWhitespace then
      if acc.isEmpty then wordsGo [] rest
      else String.mk acc.reverse :: wordsGo [] rest
    else wordsGo (c :: acc) rest

/-- `str::split_ascii_whitespace` as a word list. -/
def words (s : List Char) : List String :=
  wordsGo [] s

/-- Rust `str::parse::<u8>()`: optional leading plus sign, then at least
one digit, value at most 255. -/
def parseU8 (s : String) : Option Nat :=
  let cs := s.toList
  let ds := match cs with
    | '+' :: rest => rest
    | l => l
  if ds ≠ [] ∧ ds.all Char.isDigit then
    let v := ds.foldl (fun a c => a * 10 + (c.toNat - '0'.toNat)) 0
    if v ≤ 255 then some v else none
  else none

/-- The `TEXT [ ... ]` sub-scan of `Requirements::tokenize`
(requirements.rs:302-321): any "[" switches collection on (and is
dropped), the first "]" seen while collecting stops; words before the
first "[" are dropped.  Returns the collected words and the remaining
word stream. -/
def scanText (start : Bool) : List String → (List String × List String)
  | [] => ([], [])
  | w :: rest =>
    if w == "[" then scanText true rest
    else if start && w == "]" then ([], rest)
    else if start then
      let (c, r) := scanText start rest
      (w :: c, r)
    else scanText start rest

/-- The word classification loop of `Requirements::tokenize`
(requirements.rs:258-338), consuming a word list.  The fuel argument
bounds the number of loop iterations; every iteration consumes at least
one word, so the caller's `length + 1` never runs out. -/
def tokenizeGo : Nat → List String → List Token
  | 0, _ => []
  | _ + 1, [] => []
  | fuel + 1, w :: rest =>
    if w == "or" || w == "OR" || w == "Or" then
      Token.OPERATOR Operator.OR :: tokenizeGo fuel rest
    else if w == "and" || w == "AND" || w == "And" then
      Token.OPERATOR Operator.AND :: tokenizeGo fuel rest
    else if w == "UOC" || w == "uoc" || w == "Uoc" || w == "UOCs" then
      Token.KEYWORD Keyword.UOC :: tokenizeGo fuel rest
    else if w == "WAM" || w == "wam" || w == "Wam" then
      Token.KEYWORD Keyword.WAM :: tokenizeGo fuel rest
    else if w == "at" || w == "AT" then
      Token.PREPOSITION Preposition.AT :: tokenizeGo fuel rest
    else if w == "from" || w == "FROM" then
      Token.PREPOSITION Preposition.FROM :: tokenizeGo fuel rest
    else if w == "of" || w == "OF" then
      Token.PREPOSITION Preposition.OF :: tokenizeGo fuel rest
    else if w == "level" || w == "LEVEL" then
      Token.KEYWORD Keyword.LEVEL :: tokenizeGo fuel rest
    else if w == "," then
      Token.COMMA :: tokenizeGo fuel rest
    else if w == "(" then
      Token.BRACKET Bracket.OPEN :: tokenizeGo fuel rest
    else if w == ")" then
      Token.BRACKET Bracket.CLOSE :: tokenizeGo fuel rest
    else if w == "TEXT" then
      let (txt, r) := scanText false rest
      Token.TEXT (String.intercalate (" ") txt) :: tokenizeGo fuel r
    else
      match CourseCode.from_str w.toList with
      | some c => Token.CODE (Code.COURSE c) :: tokenizeGo fuel rest
      | none =>
        match ProgramCode.from_str w.toList with
        | some p => Token.CODE (Code.PROGRAM p) :: tokenizeGo fuel rest
        | none =>
          match parseU8 w with
          | some n => Token.NUMBER n :: tokenizeGo fuel rest
          | none => tokenizeGo fuel rest

/-- Embeds `Requirements::tokenize` (requirements.rs:258-338). -/
def Requirements.tokenize (s : String) : List Token :=
  tokenizeGo (s.toList.length + 1) (words s.toList)

/-! ## requirements.rs: the requirement expression tree

The Rust tree is an open trait-object family (`Box<dyn Node>`) with
exactly the eight node structs below; it is embedded as a closed sum. -/

/-- The eight node kinds of requirements.rs: `ListNode`, `BinaryNode`,
`CodeNode`, `TextNode`, `UOCNode`, `UOCAtLevelNode`, `UOCFromNode`,
`WamNode`. -/
inductive Node where
  | list (children : List Node)
  | binary (left right : Node) (op : Operator)
  | code (c : Code)
  | text (t : String)
  | uoc (n : Nat)
  | uocAtLevel (n lvl : Nat)
  | uocFrom (n : Nat) (codes : List CourseCode)
  | wam (w : Nat)

mutual

/-- Embeds the `get` methods (canonical rendering) of the eight node
structs of requirements.rs. -/
def Node.get : Node → String
  | Node.list cs =>
    "Require all of following conditions: " ++ String.intercalate (", ") (Node.getAll cs)
  | Node.binary l r op =>
    "(" ++ Node.get l
      ++ (match op with | Operator.AND => " and " | Operator.OR => " or ")
      ++ Node.get r ++ ")"
  | Node.code (Code.COURSE c) => c.toStr
  | Node.code (Code.PROGRAM p) => p.toStr
  | Node.text t => t
  | Node.uoc n => "Complete at least " ++ toString n ++ " UOC"
  | Node.uocAtLevel n lvl =>
    "Complete " ++ toString n ++ " UOC at level " ++ toString lvl
  | Node.uocFrom n codes =>
    "Complete " ++ toString n ++ " UOC from following course ["
      ++ String.intercalate (", ") (codes.map CourseCode.toStr) ++ "]"
  | Node.wam w => "WAM of at least " ++ toString w

/-- Renders each child of a `ListNode` (the `map(|node| node.get())` of
`ListNode::get`). -/
def Node.getAll : List Node → List String
  | [] => []
  | n :: rest => Node.get n :: Node.getAll rest

end

/-! ## requirements.rs: the sub-parsers and the main parser -/

/-- Embeds `UOCAtLevelNode::parse` (requirements.rs:731-773): discard one
token (the AT preposition), then require `KEYWORD(LEVEL)` then a
`NUMBER`; returns the level and the remaining tokens. -/
def uocAtLevelParse : List Token → Except String (Nat × List Token)
  | [] => .error ("ERROR (UOC-2A): UOC at level without following level keyword")
  | _ :: rest =>
    match rest with
    | [] => .error ("ERROR (UOC-2A): UOC at level without following level keyword")
    | Token.KEYWORD Keyword.LEVEL :: rest2 =>
      match rest2 with
      | [] => .error ("ERROR (UOC-2B): UOC at level without following level number")
      | Token.NUMBER lvl :: rest3 => .ok (lvl, rest3)
      | _ :: _ => .error ("ERROR (UOC-2C): UOC at level without following level number")
    | Token.KEYWORD _ :: _ =>
      .error ("ERROR (UOC-2D): UOC at level without following level keyword")
    | _ :: _ => .error ("ERROR (UOC-2E): UOC at level without following level keyword")

/-- The post-loop check of `UOCFromNode::parse` (requirements.rs:869-874):
zero collected codes is a structural error. -/
def uocFromFinish (acc : List CourseCode) (rest : List Token) :
    Except String (List CourseCode × List Token) :=
  if acc.isEmpty then .error ("ERROR (UOC-3A): UOC from without following course code")
  else .ok (acc.reverse, rest)

/-- The collection loop of `UOCFromNode::parse` (requirements.rs:837-868):
course codes are collected, OR operators are skipped, an AND operator or
the end of input stops the loop (then the zero-codes check runs), a
program code or any other token is an error. -/
def uocFromLoop (acc : List CourseCode) : List Token → Except String (List CourseCode × List Token)
  | [] => uocFromFinish acc []
  | Token.CODE (Code.COURSE c) :: rest => uocFromLoop (c :: acc) rest
  | Token.CODE (Code.PROGRAM _) :: _ =>
    .error ("ERROR (UOC-4): One of the course code is not a course code")
  | Token.OPERATOR Operator.OR :: rest => uocFromLoop acc rest
  | Token.OPERATOR Operator.AND :: rest => uocFromFinish acc rest
  | _ :: _ => .error ("ERROR (UOC-6): The expected token is a course code or OR operator")

/-- Embeds `UOCFromNode::parse` (requirements.rs:834-875): discard one
token (the FROM preposition), then run the collection loop. -/
def uocFromParse : List Token → Except String (List CourseCode × List Token)
  | [] => uocFromLoop [] []
  | _ :: rest => uocFromLoop [] rest

/-- Embeds `WamNode::parse` (requirements.rs:981-1005): requires an OF
preposition (peeked, then popped) and then some following token.  If
that token is a NUMBER it becomes the threshold; ANY OTHER token is
consumed silently and the threshold stays at its initial value 0 — the
`if let Token::NUMBER` has no else branch and the function returns
`Ok(())` regardless. -/
def wamParse : List Token → Except String (Nat × List Token)
  | [] => .error ("ERROR (WAM-1): WAM without following course code")
  | Token.PREPOSITION Preposition.OF :: rest =>
    match rest with
    | [] => .error ("ERROR (WAM-3): WAM without following WAM number")
    | t :: rest2 => .ok ((match t with | Token.NUMBER n => n | _ => 0), rest2)
  | _ :: _ => .error ("ERROR (WAM-2): WAM without following OF preposition")

/-- The sub-run collection of the OPERATOR arm of `Requirements::do_parse`
(requirements.rs:379-391): tokens up to (excluding) the next COMMA, the
COMMA itself staying on the stream. -/
def takeUntilComma : List Token → List Token × List Token
  | [] => ([], [])
  | Token.COMMA :: rest => ([], Token.COMMA :: rest)
  | t :: rest =>
    let (a, b) := takeUntilComma rest
    (t :: a, b)

/-- The bracket collection of the BRACKET arm of `Requirements::do_parse`
(requirements.rs:478-496): collects tokens while counting nesting depth,
drops the final closing bracket, `none` on an unclosed bracket. -/
def collectBracket : Nat → List Token → Option (List Token × List Token)
  | _, [] => none
  | depth, t :: rest =>
    let depth' :=
      match t with
      | Token.BRACKET Bracket.OPEN => depth + 1
      | Token.BRACKET Bracket.CLOSE => depth - 1
      | _ => depth
    if depth' = 0 then some ([], rest)
    else
      match collectBracket depth' rest with
      | some (a, b) => some (t :: a, b)
      | none => none

/-- The end-of-input reduction of `Requirements::do_parse`
(requirements.rs:530-536).  `parsed` is accumulated newest-first, so it
is reversed back to source order here. -/
def parseReduce (parsed : List Node) : Except String (Option Node) :=
  match parsed.reverse with
  | [] => .ok none
  | [nd] => .ok (some nd)
  | l => .ok (some (Node.list l))

/-- The final buffer flush of `Requirements::do_parse`
(requirements.rs:521-528) followed by the reduction. -/
def parseFinish (buffer parsed : List Node) : Except String (Option Node) :=
  match buffer with
  | [] => parseReduce parsed
  | [nd] => parseReduce (nd :: parsed)
  | _ => .error ("ERROR (COM-1): There are more than one node in the buffer.")

mutual

/-- Embeds `Requirements::do_parse` (requirements.rs:350-537).  The Rust
code reverses the token vector and pops from its end; this model
consumes the SAME token order from the front of the list.  The fuel
argument bounds the recursion depth; `Requirements.parse` supplies
`2 * length + 2`, which exceeds the depth of every call chain (each
nesting level strictly loses tokens), so the fuel-exhausted branch is
unreachable from the public entry point. -/
def doParseF : Nat → List Token → Except String (Option Node)
  | 0, _ => .error ("PARSER-FUEL")
  | fuel + 1, tokens =>
    if tokens.isEmpty then .ok none
    else parseLoopF fuel tokens [] []

/-- The token loop of `Requirements::do_parse` (requirements.rs:360-520):
`buffer` (newest-first, at most one pending sub-expression in well-formed
states) and `parsed` (comma-flushed items, newest-first). -/
def parseLoopF : Nat → List Token → List Node → List Node → Except String (Option Node)
  | 0, _, _, _ => .error ("PARSER-FUEL")
  | _ + 1, [], buffer, parsed => parseFinish buffer parsed
  | fuel + 1, t :: rest, buffer, parsed =>
    match t with
    | Token.TEXT s => parseLoopF fuel rest (Node.text s :: buffer) parsed
    | Token.CODE c => parseLoopF fuel rest (Node.code c :: buffer) parsed
    | Token.OPERATOR op =>
      match buffer with
      | [left] =>
        let sub := takeUntilComma rest
        match doParseF fuel sub.1 with
        | .error e => .error e
        | .ok none => parseLoopF fuel sub.2 [left] parsed
        | .ok (some right) => parseLoopF fuel sub.2 [Node.binary left right op] parsed
      | [] => parseLoopF fuel rest [] parsed
      | _ => .error ("ERROR (BIN-1): more than one left hand side token.")
    | Token.NUMBER n =>
      match rest with
      | [] => parseFinish buffer parsed
      | next :: rest2 =>
        match next with
        | Token.KEYWORD Keyword.UOC =>
          match rest2 with
          | [] => parseLoopF fuel [] (Node.uoc n :: buffer) parsed
          | pos :: _ =>
            match pos with
            | Token.PREPOSITION Preposition.FROM =>
              match uocFromParse rest2 with
              | .error e => .error e
              | .ok (codes, r) => parseLoopF fuel r (Node.uocFrom n codes :: buffer) parsed
            | Token.PREPOSITION Preposition.AT =>
              match uocAtLevelParse rest2 with
              | .error e => .error e
              | .ok (lvl, r) => parseLoopF fuel r (Node.uocAtLevel n lvl :: buffer) parsed
            | _ => parseLoopF fuel rest2 buffer parsed
        | Token.KEYWORD Keyword.WAM => parseLoopF fuel rest2 (Node.wam n :: buffer) parsed
        | _ => parseLoopF fuel rest2 buffer parsed
    | Token.COMMA =>
      match buffer with
      | [nd] => parseLoopF fuel rest [] (nd :: parsed)
      | [] => parseLoopF fuel rest [] parsed
      | _ => .error ("ERROR (COM-1): There are more than one node in the buffer.")
    | Token.BRACKET _ =>
      match collectBracket 1 rest with
      | none => .error ("ERROR (BRA-1): Unclose bracket.")
      | some (sub, remaining) =>
        match doParseF fuel sub with
        | .error e => .error e
        | .ok none => parseLoopF fuel remaining buffer parsed
        | .ok (some nd) => parseLoopF fuel remaining (nd :: buffer) parsed
    | Token.KEYWORD Keyword.WAM =>
      match wamParse rest with
      | .error e => .error e
      | .ok (w, r) => parseLoopF fuel r (Node.wam w :: buffer) parsed
    | Token.KEYWORD _ => parseLoopF fuel rest buffer parsed
    | Token.PREPOSITION _ => parseLoopF fuel rest buffer parsed

end

/-- Embeds `Requirements::parse` (requirements.rs:341-347).  The Rust
reversal plus stack-popping is equivalent to consuming the original
order from the front, which `doParseF` does. -/
def Requirements.parse (tokens : List Token) : Except String (Option Node) :=
  doParseF (2 * tokens.length + 2) tokens

/-- Embeds `struct Requirements` (requirements.rs:35-39). -/
structure Requirements where
  contents : Option Node
  raw : String

/-- Embeds `Requirements::try_new` (requirements.rs:175-189). -/
def Requirements.try_new (raw : String) : Option Requirements :=
  match Requirements.parse (Requirements.tokenize (Requirements.clean raw)) with
  | .error _ => none
  | .ok node => some ⟨node, raw⟩

/-- Embeds `impl Display for Requirements` (requirements.rs:46-54). -/
def Requirements.render (r : Requirements) : String :=
  match r.contents with
  | none => ""
  | some n => n.get

/-! ## course.rs: Course, CourseManager and the requirement evaluator -/

namespace course

/-- Embeds `struct Course` (course.rs:85-97).  `study_level`,
`offering_terms`, `campus` play no role in any embedded operation and
are kept as plain data fields. -/
structure Course where
  title : String
  code : CourseCode
  uoc : Nat
  description : String
  level : Nat
  requirements : Option Requirements

end course

/-- Association-list lookup, the model of `HashMap::get` (first entry
with the given key; Rust HashMaps have no duplicate keys). -/
def assocLookup {α : Type} (k : String) : List (String × α) → Option α
  | [] => none
  | kv :: rest => if k == kv.1 then some kv.2 else assocLookup k rest

/-- Embeds `struct CourseManager` (course.rs:374-378); the course map is
an association list keyed by the course's display string.  The
equivalent/exclusion maps are not consumed by any embedded operation. -/
structure CourseManager where
  courses : List (String × course.Course)

/-- Embeds `CourseManager::get_course` (course.rs:697-711). -/
def CourseManager.get_course (cm : CourseManager) (cc : CourseCode) :
    Except String course.Course :=
  if ¬ cc.is_course_code then
    .error ("Expect a specific course code, rather than " ++ cc.toStr)
  else
    match assocLookup cc.toStr cm.courses with
    | none => .error (cc.toStr ++ " cannot found in dataset")
    | some c => .ok c

/-- The summation loop of `UOCNode::evulate` (requirements.rs:943-953):
every taken course must parse as an exact course code (hard error
otherwise) and must resolve in the course manager (error propagated). -/
def sumUOC (cm : CourseManager) : List String → Except String Nat
  | [] => .ok 0
  | s :: rest =>
    match CourseCode.from_str s.toList with
    | none => .error ("Given " ++ s ++ " is not a Course Code")
    | some cc =>
      match cm.get_course cc with
      | .error e => .error e
      | .ok c =>
        match sumUOC cm rest with
        | .error e => .error e
        | .ok r => .ok (c.uoc + r)

/-- The summation loop of `UOCAtLevelNode::evulate`
(requirements.rs:786-798): only courses at the node's level are resolved
and summed (resolution of other levels is never attempted). -/
def sumUOCAtLevel (cm : CourseManager) (lvl : Nat) : List String → Except String Nat
  | [] => .ok 0
  | s :: rest =>
    match CourseCode.from_str s.toList with
    | none => .error ("Given " ++ s ++ " is not a Course Code")
    | some cc =>
      if cc.level = lvl then
        match cm.get_course cc with
        | .error e => .error e
        | .ok c =>
          match sumUOCAtLevel cm lvl rest with
          | .error e => .error e
          | .ok r => .ok (c.uoc + r)
      else sumUOCAtLevel cm lvl rest

/-- The summation loop of `UOCFromNode::evulate` (requirements.rs:895-907):
only taken courses that are members of the node's code list are summed;
membership uses the wildcard `PartialEq` with the LIST ELEMENT on the
left (`Vec::contains` compares `element == needle`). -/
def sumUOCFrom (cm : CourseManager) (codes : List CourseCode) :
    List String → Except String Nat
  | [] => .ok 0
  | s :: rest =>
    match CourseCode.from_str s.toList with
    | none => .error ("Given " ++ s ++ " is not a Course Code")
    | some cc =>
      if codes.any (fun e => e.beq cc) then
        match cm.get_course cc with
        | .error e => .error e
        | .ok c =>
          match sumUOCFrom cm codes rest with
          | .error e => .error e
          | .ok r => .ok (c.uoc + r)
      else sumUOCFrom cm codes rest

mutual

/-- Embeds the `evulate` (sic) methods of the eight node structs of
requirements.rs, dispatched on the node kind: List aggregation
(requirements.rs:615-626), Binary short-circuit with error propagation
through `?` (requirements.rs:672-711), and the leaves. -/
def evulate : Node → ProgramCode → List String → Option Nat → CourseManager →
    Except String Bool
  | Node.list cs, pc, taken, wam, cm => .ok (evulateAll cs pc taken wam cm)
  | Node.binary l r op, pc, taken, wam, cm =>
    match op with
    | Operator.AND =>
      match evulate l pc taken wam cm with
      | .error e => .error e
      | .ok false => .ok false
      | .ok true =>
        match evulate r pc taken wam cm with
        | .error e => .error e
        | .ok false => .ok false
        | .ok true => .ok true
    | Operator.OR =>
      match evulate l pc taken wam cm with
      | .error e => .error e
      | .ok true => .ok true
      | .ok false =>
        match evulate r pc taken wam cm with
        | .error e => .error e
        | .ok true => .ok true
        | .ok false => .ok false
  | Node.code (Code.COURSE c), _, taken, _, _ => .ok (taken.contains c.toStr)
  | Node.code (Code.PROGRAM p), pc, _, _, _ => .ok (pc.toStr == p.toStr)
  | Node.text _, _, _, _, _ => .ok true
  | Node.uoc n, _, taken, _, cm =>
    match sumUOC cm taken with
    | .error e => .error e
    | .ok s => .ok (decide (n ≤ s))
  | Node.uocAtLevel n lvl, _, taken, _, cm =>
    match sumUOCAtLevel cm lvl taken with
    | .error e => .error e
    | .ok s => .ok (decide (n ≤ s))
  | Node.uocFrom n codes, _, taken, _, cm =>
    match sumUOCFrom cm codes taken with
    | .error e => .error e
    | .ok s => .ok (decide (n ≤ s))
  | Node.wam w, _, _, wam, _ =>
    match wam with
    | none => .ok true
    | some v => .ok (decide (w ≤ v))

/-- The `ListNode::evulate` aggregation (requirements.rs:622-625): every
child must evaluate to true, a child's ERROR is swallowed and counted as
false (`unwrap_or(false)`). -/
def evulateAll : List Node → ProgramCode → List String → Option Nat → CourseManager → Bool
  | [], _, _, _, _ => true
  | n :: rest, pc, taken, wam, cm =>
    (match evulate n pc taken wam cm with
     | .ok b => b
     | .error _ => false)
      && evulateAll rest pc taken wam cm

end

/-- Embeds `Requirements::is_satisified` (sic, requirements.rs:218-233):
a missing tree is always satisfied. -/
def Requirements.is_satisified (r : Requirements) (pc : ProgramCode)
    (taken : List String) (wam : Option Nat) (cm : CourseManager) :
    Except String Bool :=
  match r.contents with
  | none => .ok true
  | some n => evulate n pc taken wam cm

/-- Embeds `Course::is_eligible` (course.rs:269-287): a course without a
Requirements tree is always eligible (fail-open), otherwise the tree is
evaluated. -/
def course.Course.is_eligible (c : course.Course) (pc : ProgramCode)
    (taken : List String) (wam : Option Nat) (cm : CourseManager) :
    Except String Bool :=
  match c.requirements with
  | none => .ok true
  | some r => r.is_satisified pc taken wam cm

/-! ## program.rs: Program / Specialisation structures -/

namespace program

/-- Embeds `enum Course` (program.rs:336-341): an exact-or-pattern code,
an "alternative" OR-list, or an opaque text placeholder.  The
`AlternativeCourse` wrapper is inlined as its course list. -/
inductive Course where
  | Course (c : CourseCode)
  | Alternative (courses : List CourseCode)
  | Text (t : String)

/-- Embeds `Course::to_course_codes` (program.rs:374-380): a code yields
itself, an alternative yields its member codes, text yields nothing. -/
def Course.to_course_codes : program.Course → List CourseCode
  | .Course c => [c]
  | .Alternative cs => cs
  | .Text _ => []

/-- Embeds `impl Display for Course` / `AlternativeCourse`
(program.rs:389-397, 416-430). -/
def Course.toStr : program.Course → String
  | .Course c => c.toStr
  | .Alternative cs => String.intercalate (" or ") (cs.map CourseCode.toStr)
  | .Text t => t

/-- Embeds `struct CourseComponent` (program.rs:493-499). -/
structure CourseComponent where
  title : String
  courses : List Course
  uoc : Nat
  note : String

/-- Embeds `struct SpecialisationView` (program.rs:557-563). -/
structure SpecialisationView where
  specialisations : List String
  notes : String
  is_optional : Bool

/-- Embeds `struct SpecialisationComponent` (program.rs:598-603): up to
three tier maps keyed by direction label. -/
structure SpecialisationComponent where
  major : Option (List (String × SpecialisationView))
  minor : Option (List (String × SpecialisationView))
  honours : Option (List (String × SpecialisationView))

/-- Embeds `enum SpecialisationType` (program.rs:167-172). -/
inductive SpecialisationType where
  | Major
  | Minor
  | Honours

/-- Embeds `impl Display for SpecialisationType` (program.rs:174-183). -/
def SpecialisationType.toStr : SpecialisationType → String
  | SpecialisationType.Major => "Major"
  | SpecialisationType.Minor => "Minor"
  | SpecialisationType.Honours => "Honours"

/-- Embeds `struct Specialisation` (program.rs:186-195); `constraints`
are kept as (title, description) pairs. -/
structure Specialisation where
  name : String
  spec_type : SpecialisationType
  uoc : Nat
  code : String
  course_components : List (String × CourseComponent)
  constraints : Option (List (String × String))
  programs : List ProgramCode

/-- Embeds `struct Program` (program.rs:15-26); the `rules` are kept as
(title, body) pairs. -/
structure Program where
  title : String
  code : ProgramCode
  uoc : Nat
  duration : Nat
  overview : String
  structure_summary : String
  course_components : Option (List (String × CourseComponent))
  specialisation_component : Option SpecialisationComponent
  rules : List (String × String)

end program

/-- Embeds `Program::list_courses` (search.rs:50-58): every course
component's (title, course list) pair; `none` if the program has no
course components at all. -/
def program.Program.list_courses (p : program.Program) :
    Option (List (String × List program.Course)) :=
  p.course_components.map (fun comps => comps.map (fun kv => (kv.2.title, kv.2.courses)))

/-- The per-tier flattening of `Program::list_specialisations`
(search.rs:78-104): a missing tier yields the empty list. -/
def viewsOf (o : Option (List (String × program.SpecialisationView))) :
    List (String × List String) :=
  match o with
  | none => []
  | some m => m.map (fun kv => (kv.1, kv.2.specialisations))

/-- Embeds `Program::list_specialisations` (search.rs:76-106): the three
(direction, specialisation-code list) tier lists — major, minor,
honours; `none` only if the program has no SpecialisationComponent. -/
def program.Program.list_specialisations (p : program.Program) :
    Option (List (String × List String) × List (String × List String)
            × List (String × List String)) :=
  p.specialisation_component.map (fun sc =>
    (viewsOf sc.major, viewsOf sc.minor, viewsOf sc.honours))

/-- Embeds `Specialisation::list_courses` (search.rs:122-127). -/
def program.Specialisation.list_courses (s : program.Specialisation) :
    List (String × List program.Course) :=
  s.course_components.map (fun kv => (kv.2.title, kv.2.courses))

/-- Embeds `struct ProgramManager` (program.rs:705-708, field name sic). -/
structure ProgramManager where
  programs : List (String × program.Program)
  specialiastions : List (String × program.Specialisation)

/-- Embeds `ProgramManager::get_program` (program.rs:905-911). -/
def ProgramManager.get_program (pm : ProgramManager) (code : ProgramCode) :
    Except String program.Program :=
  match assocLookup code.toStr pm.programs with
  | some p => .ok p
  | none => .error (code.toStr ++ " cannot found in dataset")

/-- Embeds `ProgramManager::get_specialiastion` (sic, program.rs:933-939). -/
def ProgramManager.get_specialiastion (pm : ProgramManager) (code : String) :
    Except String program.Specialisation :=
  match assocLookup code pm.specialiastions with
  | some s => .ok s
  | none => .error (code ++ " cannot found in dataset")

/-- One `specialisation.programs.push(program.code)` step of the
back-populate pass (program.rs:779-781 etc.): the map entry with the
given key, when present, gains the program code at the end of its
list; an absent key is silently skipped. -/
def pushProgram : List (String × program.Specialisation) → String → ProgramCode →
    List (String × program.Specialisation)
  | [], _, _ => []
  | kv :: rest, sc, pc =>
    (if kv.1 == sc then (kv.1, { kv.2 with programs := kv.2.programs ++ [pc] }) else kv)
      :: pushProgram rest sc pc

/-- Flatten a tier map to the referenced specialisation codes. -/
def viewsFlat (o : Option (List (String × program.SpecialisationView))) : List String :=
  match o with
  | none => []
  | some m => (m.map (fun kv => kv.2.specialisations)).flatten

/-- Every specialisation code referenced by a program's
SpecialisationComponent, in the tier order major, minor, honours walked
by `mapping_program_into_specialisation` (program.rs:776-802). -/
def program.Program.referencedSpecCodes (p : program.Program) : List String :=
  match p.specialisation_component with
  | none => []
  | some sc => viewsFlat sc.major ++ viewsFlat sc.minor ++ viewsFlat sc.honours

/-- The per-program body of the back-populate pass. -/
def ProgramManager.applyProgram (specs : List (String × program.Specialisation))
    (p : program.Program) : List (String × program.Specialisation) :=
  p.referencedSpecCodes.foldl (fun s sc => pushProgram s sc p.code) specs

/-- Embeds `ProgramManager::mapping_program_into_specialisation`
(program.rs:773-805): for every program and every specialisation code it
references, the specialisation (when present in the map) gains that
program's code. -/
def ProgramManager.mapping_program_into_specialisation (pm : ProgramManager) :
    ProgramManager :=
  { pm with
    specialiastions :=
      pm.programs.foldl (fun s kv => ProgramManager.applyProgram s kv.2)
        pm.specialiastions }

/-! ## search.rs: program structure expansion and course pools -/

/-- The per-specialisation expansion entries of `get_program_structure`:
`"{tier} - {spec name} - {component name}"` with the rendered courses
(search.rs:243-259 and 276-292). -/
def expandSpecInto (tierName : String) (spec : program.Specialisation) :
    List (String × List String) :=
  spec.list_courses.map (fun kv =>
    (tierName ++ " - " ++ spec.name ++ " - " ++ kv.1, kv.2.map program.Course.toStr))

/-- The recursive no-filter walk of one tier (search.rs:230-262): a
specialisation lookup failure is logged and skipped. -/
def expandTierAll (pm : ProgramManager) (tierName : String)
    (dirs : List (String × List String)) : List (String × List String) :=
  (dirs.map (fun kv =>
    (kv.2.map (fun sc =>
      match pm.get_specialiastion sc with
      | .error _ => []
      | .ok sp => expandSpecInto tierName sp)).flatten)).flatten

/-- The filtered walk of `get_program_structure` (search.rs:268-293):
each listed code must resolve (error propagated) and must carry the
target program in its back-populated list, otherwise the whole call
fails naming the offending code and program. -/
def expandFiltered (pm : ProgramManager) (pcode : ProgramCode) :
    List String → Except String (List (String × List String))
  | [] => .ok []
  | sc :: rest =>
    match pm.get_specialiastion sc with
    | .error e => .error e
    | .ok sp =>
      if sp.programs.contains pcode then
        match expandFiltered pm pcode rest with
        | .error e => .error e
        | .ok more => .ok (expandSpecInto sp.spec_type.toStr sp ++ more)
      else
        .error ("Specialisation " ++ sc ++ " is not allowed for program " ++ pcode.toStr)

/-- The non-recursive tier summary of `get_program_structure`
(search.rs:297-313): one `"{tier} - {direction}"` entry per non-empty
(tier, direction) pair. -/
def summarizeTier (tierName : String) (dirs : List (String × List String)) :
    List (String × List String) :=
  dirs.filterMap (fun kv =>
    if kv.2.isEmpty then none else some (tierName ++ " - " ++ kv.1, kv.2))

/-- Embeds `ProgramManager::get_program_structure` (search.rs:206-319). -/
def ProgramManager.get_program_structure (pm : ProgramManager) (code : ProgramCode)
    (recursive : Bool) (filter : Option (List String)) :
    Except String (List (String × List String)) :=
  match pm.get_program code with
  | .error e => .error e
  | .ok p =>
    let base := (p.list_courses.getD []).map
      (fun kv => (kv.1, kv.2.map program.Course.toStr))
    if recursive then
      match filter with
      | none =>
        match p.list_specialisations with
        | none => .ok base
        | some (ma, mi, ho) =>
          .ok (base ++ expandTierAll pm ("Major") ma
            ++ expandTierAll pm ("Minor") mi ++ expandTierAll pm ("Honours") ho)
      | some codes =>
        match expandFiltered pm code codes with
        | .error e => .error e
        | .ok extra => .ok (base ++ extra)
    else
      match p.list_specialisations with
      | none => .ok base
      | some (ma, mi, ho) =>
        .ok (base ++ summarizeTier ("Major") ma
          ++ summarizeTier ("Minor") mi ++ summarizeTier ("Honours") ho)

/-- Embeds `enum SearchPoolLevel` (search.rs:377-384). -/
inductive SearchPoolLevel where
  | Hybrid
  | CourseCodeOnly
  | CoursePatternOnly

/-- Embeds `struct SearchPool` (search.rs:387-391). -/
structure SearchPool where
  course_code_pool : Option (List CourseCode)
  course_pattern_pool : Option (List CourseCode)
  pool_level : SearchPoolLevel

/-- Embeds `SearchPool::new` (search.rs:395-417): empty sets become
`none`, and the level is derived from the two sizes. -/
def SearchPool.new (codePool patternPool : List CourseCode) : SearchPool :=
  { course_code_pool := if codePool.length = 0 then none else some codePool
    course_pattern_pool := if patternPool.length = 0 then none else some patternPool
    pool_level :=
      if codePool.length = 0 ∧ patternPool.length = 0 then SearchPoolLevel.CourseCodeOnly
      else if patternPool.length = 0 then SearchPoolLevel.CourseCodeOnly
      else if codePool.length = 0 then SearchPoolLevel.CoursePatternOnly
      else SearchPoolLevel.Hybrid }

/-- Embeds `SearchPool::new_from_set` (search.rs:423-434): the input set
split by `CourseCode::is_pattern`. -/
def SearchPool.new_from_set (l : List CourseCode) : SearchPool :=
  SearchPool.new (l.filter (fun c => !c.is_pattern)) (l.filter (fun c => c.is_pattern))

/-- The specialisation walk of `ProgramManager::get_course_pool`
(search.rs:351-364).  The Rust code calls `.unwrap()` on each
specialisation lookup and would PANIC on a failure; the panic is
modelled as a propagated error, which coincides with the Rust function
on every input on which the Rust function returns at all. -/
def ProgramManager.collectSpecCourses (pm : ProgramManager) :
    List String → Except String (List program.Course)
  | [] => .ok []
  | sc :: rest =>
    match pm.get_specialiastion sc with
    | .error e => .error e
    | .ok sp =>
      match ProgramManager.collectSpecCourses pm rest with
      | .error e => .error e
      | .ok more => .ok ((sp.list_courses.map Prod.snd).flatten ++ more)

/-- Embeds `ProgramManager::get_course_pool` (search.rs:342-372): unions
the program's own component courses with every course of every
specialisation reachable from every tier, flattens the entries into
course codes, and splits them into a SearchPool. -/
def ProgramManager.get_course_pool (pm : ProgramManager) (code : ProgramCode) :
    Except String SearchPool :=
  match pm.get_program code with
  | .error e => .error e
  | .ok p =>
    let base := ((p.list_courses.getD []).map Prod.snd).flatten
    let specCodes :=
      match p.list_specialisations with
      | none => []
      | some (ma, mi, ho) => ((ma ++ mi ++ ho).map Prod.snd).flatten
    match pm.collectSpecCourses specCodes with
    | .error e => .error e
    | .ok specCourses =>
      .ok (SearchPool.new_from_set
        (((base ++ specCourses).map program.Course.to_course_codes).flatten))

/-- Embeds the method `SearchPool::course_code_pool` (search.rs:532-544):
each pooled exact code resolved through `get_course`, failed lookups
silently dropped. -/
def SearchPool.resolve_code_pool (sp : SearchPool) (cm : CourseManager) :
    List course.Course :=
  (sp.course_code_pool.getD []).filterMap (fun cc =>
    match cm.get_course cc with
    | .ok c => some c
    | .error _ => none)

/-- Embeds the method `SearchPool::course_pattern_pool`
(search.rs:558-574): the whole catalog filtered by "some pooled pattern
matches the course's code" (pattern on the left of `is_match`). -/
def SearchPool.resolve_pattern_pool (sp : SearchPool) (cm : CourseManager) :
    List course.Course :=
  (cm.courses.filter (fun kv =>
    (sp.course_pattern_pool.getD []).any (fun pat => pat.is_match kv.2.code))).map Prod.snd

/-- Embeds `SearchPool::pool` (search.rs:508-518): the active set(s) per
pool level. -/
def SearchPool.pool (sp : SearchPool) (cm : CourseManager) : List course.Course :=
  match sp.pool_level with
  | SearchPoolLevel.CourseCodeOnly => sp.resolve_code_pool cm
  | SearchPoolLevel.CoursePatternOnly => sp.resolve_pattern_pool cm
  | SearchPoolLevel.Hybrid => sp.resolve_code_pool cm ++ sp.resolve_pattern_pool cm

/-- Embeds `CourseManager::list_eligible_courses` (search.rs:593-610):
the resolved pool filtered by `is_eligible`, evaluation errors treated
as ineligible. -/
def CourseManager.list_eligible_courses (cm : CourseManager) (sp : SearchPool)
    (pc : ProgramCode) (taken : List String) (wam : Option Nat) :
    List course.Course :=
  (sp.pool cm).filter (fun c =>
    match c.is_eligible pc taken wam cm with
    | .ok b => b
    | .error _ => false)

/-! # Theorems -/

/-! ## Helper lemmas -/

theorem zip_self_take_all (l : List Char) (n : Nat) :
    ((l.zip l).take n).all (fun p => p.1 == p.2) = true := by
  induction l generalizing n with
  | nil => simp
  | cons c rest ih =>
    cases n with
    | zero => simp
    | succ m => simpa using ih m

theorem refill_getD (fill : Char) (n : Nat) (xs : List Char) (i : Nat) (d : Char)
    (h : i < n) : (CourseCode.refill fill n xs).getD i d = xs.getD i d := by
  induction xs generalizing n i with
  | nil => simp [CourseCode.refill]
  | cons c rest ih =>
    cases i with
    | zero => simp [CourseCode.refill, Nat.lt_of_lt_of_le (by omega : 0 < n) (Nat.le_refl n), h]
    | succ j =>
      have hj : j < n - 1 := by omega
      simp only [CourseCode.refill, List.getD_cons_succ]
      exact ih (n - 1) j hj

/-! ## C1: pattern-vs-exact equality symmetry -/

/-- C1: the claim states that for an exact code E and a pattern P whose
school segment is fully live and equal to E's, with number-live-length 0,
BOTH `P == E` and `E == P` are true.  The second half is FALSE: the
slot-wise comparison is truncated to the LEFT operand's counters only
(utlis.rs:442-452 uses `self.num_of_match_school` / `self.num_of_match_code`),
so `E == P` compares all four of E's digits against P's `####` filler and
fails.  This counterexample evaluates both directions at E = COMP1511,
P = parse("COMP"). -/
theorem C1_counterexample :
    CourseCode.from_str ("COMP1511".toList)
      = some (CourseCode.mk ("COMP".toList) ("1511".toList) 4 4)
    ∧ CourseCode.parse ("COMP".toList)
      = some (CourseCode.mk ("COMP".toList) ("####".toList) 4 0)
    ∧ (CourseCode.mk ("COMP".toList) ("####".toList) 4 0).beq
        (CourseCode.mk ("COMP".toList) ("1511".toList) 4 4) = true
    ∧ (CourseCode.mk ("COMP".toList) ("1511".toList) 4 4).beq
        (CourseCode.mk ("COMP".toList) ("####".toList) 4 0) = false := by
  refine ⟨by decide, by decide, by decide, by decide⟩

/-- C1 (amended): for every exact code E (both live counters 4, digit
number slots) and pattern P with fully live school equal to E's school
and number-live-length 0 (filler number slots), `P == E` and
`P.is_match(E)` are true, but `E == P` is FALSE: equality truncates each
segment to the left operand's live counter, so pattern-vs-exact
comparison is NOT symmetric. -/
theorem C1_theorem (E P : CourseCode)
    (hE1 : E.num_of_match_school = 4) (hE2 : E.num_of_match_code = 4)
    (hP1 : P.num_of_match_school = 4) (hP2 : P.num_of_match_code = 0)
    (hs : P.school_code = E.school_code)
    (hlc : E.course_code.length = 4) (hpc : P.course_code = ("####".toList))
    (hdig : ∀ ch ∈ E.course_code, ch.isDigit = true) :
    P.beq E = true ∧ P.is_match E = true ∧ E.beq P = false := by
  have hPbeqE : P.beq E = true := by
    rw [CourseCode.beq, hE1, hE2, hP1, hP2]
    simp only [Nat.reduceBEq, Bool.and_false, Bool.false_eq_true, if_false]
    rw [hs, List.take_zero]
    simp [zip_self_take_all]
  refine ⟨hPbeqE, hPbeqE, ?_⟩
  rw [CourseCode.beq, hE1, hE2, hP1, hP2]
  simp only [Nat.reduceBEq, Bool.and_false, Bool.false_eq_true, if_false]
  rcases hc : E.course_code with _ | ⟨a, tl⟩
  · rw [hc] at hlc; simp at hlc
  · have ha : a.isDigit = true := hdig a (by rw [hc]; exact List.mem_cons_self a tl)
    have hane : (a == '#') = false := by
      cases hq : a == '#' with
      | false => rfl
      | true =>
        have : a = '#' := eq_of_beq hq
        rw [this] at ha
        simp [Char.isDigit] at ha
    rw [hpc]
    simp [hane]

/-- C1 witness: the amended theorem applied at E = COMP1511 and
P = the COMP pattern. -/
theorem C1_witness :
    (CourseCode.mk ("COMP".toList) ("####".toList) 4 0).beq
        (CourseCode.mk ("COMP".toList) ("1511".toList) 4 4) = true
    ∧ (CourseCode.mk ("COMP".toList) ("####".toList) 4 0).is_match
        (CourseCode.mk ("COMP".toList) ("1511".toList) 4 4) = true
    ∧ (CourseCode.mk ("COMP".toList) ("1511".toList) 4 4).beq
        (CourseCode.mk ("COMP".toList) ("####".toList) 4 0) = false :=
  C1_theorem
    (CourseCode.mk ("COMP".toList) ("1511".toList) 4 4)
    (CourseCode.mk ("COMP".toList) ("####".toList) 4 0)
    (by decide) (by decide) (by decide) (by decide) (by decide) (by decide)
    (by decide) (by decide)

/-! ## C7: adjust_pattern -/

/-- C7: the claim states `adjust_pattern` CLAMPS its arguments to 0-4.
It does not: utlis.rs:384-386 returns the code UNCHANGED when either
argument exceeds 4.  At COMP1511 with arguments (5, 2) the claim
predicts live counters (4, 2); the code leaves them at (4, 4). -/
theorem C7_counterexample :
    (CourseCode.mk ("COMP".toList) ("1511".toList) 4 4).adjust_pattern 5 2
      = CourseCode.mk ("COMP".toList) ("1511".toList) 4 4
    ∧ ¬ ((CourseCode.mk ("COMP".toList) ("1511".toList) 4 4).adjust_pattern 5 2
          ).num_of_match_code = 2 := by
  refine ⟨by decide, by decide⟩

/-- C7 (amended): `adjust_pattern` leaves the code UNCHANGED when either
argument exceeds 4 (no clamping); for arguments within 0-4 it sets both
live counters to the arguments, rebuilds a segment with filler beyond
the new counter exactly when that counter changes (keeping the first
`n` original slots - previously hidden slots reappear with their
captured characters, which are filler when they were wiped earlier),
and never changes a character inside the retained live prefix. -/
theorem C7_theorem (c : CourseCode) (ns nc : Nat) :
    (4 < ns ∨ 4 < nc → c.adjust_pattern ns nc = c)
    ∧ (ns ≤ 4 → nc ≤ 4 →
        (c.adjust_pattern ns nc).num_of_match_school = ns
        ∧ (c.adjust_pattern ns nc).num_of_match_code = nc
        ∧ (c.num_of_match_code = nc → (c.adjust_pattern ns nc).course_code = c.course_code)
        ∧ (c.num_of_match_code ≠ nc →
            (c.adjust_pattern ns nc).course_code = CourseCode.refill '#' nc c.course_code)
        ∧ (c.num_of_match_school = ns → (c.adjust_pattern ns nc).school_code = c.school_code)
        ∧ (c.num_of_match_school ≠ ns →
            (c.adjust_pattern ns nc).school_code = CourseCode.refill '.' ns c.school_code)
        ∧ (∀ i, i < ns →
            (c.adjust_pattern ns nc).school_code.getD i ' ' = c.school_code.getD i ' ')
        ∧ (∀ i, i < nc →
            (c.adjust_pattern ns nc).course_code.getD i ' ' = c.course_code.getD i ' ')) := by
  constructor
  · intro h
    rw [CourseCode.adjust_pattern, if_pos h]
  · intro hns hnc
    have hno : ¬ (4 < ns ∨ 4 < nc) := by omega
    rw [CourseCode.adjust_pattern, if_neg hno]
    by_cases heq : c.num_of_match_code = nc ∧ c.num_of_match_school = ns
    · rw [if_pos heq]
      exact ⟨heq.2, heq.1, fun _ => rfl, fun h => absurd heq.1 h, fun _ => rfl,
        fun h => absurd heq.2 h, fun _ _ => rfl, fun _ _ => rfl⟩
    · rw [if_neg heq]
      by_cases h1 : c.num_of_match_code = nc
      · have h2 : c.num_of_match_school ≠ ns := fun h2' => heq ⟨h1, h2'⟩
        rw [if_neg (not_not_intro h1), if_pos h2]
        exact ⟨rfl, h1, fun _ => rfl, fun h => absurd h1 h, fun h => absurd h h2,
          fun _ => rfl, fun i hi => refill_getD '.' ns c.school_code i ' ' hi,
          fun _ _ => rfl⟩
      · rw [if_pos h1]
        by_cases h2 : c.num_of_match_school = ns
        · rw [if_neg (not_not_intro h2)]
          exact ⟨h2, rfl, fun h => absurd h h1, fun _ => rfl, fun _ => rfl,
            fun h => absurd h2 h, fun _ _ => rfl,
            fun i hi => refill_getD '#' nc c.course_code i ' ' hi⟩
        · rw [if_pos h2]
          exact ⟨rfl, rfl, fun h => absurd h h1, fun _ => rfl, fun h => absurd h h2,
            fun _ => rfl, fun i hi => refill_getD '.' ns c.school_code i ' ' hi,
            fun i hi => refill_getD '#' nc c.course_code i ' ' hi⟩

/-- C7 witness: the amended theorem applied at COMP1511 with arguments
(5,2) (out of range: unchanged) and (2,3) (in range: counters set). -/
theorem C7_witness :
    (CourseCode.mk ("COMP".toList) ("1511".toList) 4 4).adjust_pattern 5 2
      = CourseCode.mk ("COMP".toList) ("1511".toList) 4 4
    ∧ ((CourseCode.mk ("COMP".toList) ("1511".toList) 4 4).adjust_pattern 2 3
        ).num_of_match_school = 2 :=
  ⟨(C7_theorem (CourseCode.mk ("COMP".toList) ("1511".toList) 4 4) 5 2).1
      (Or.inl (by decide)),
    ((C7_theorem (CourseCode.mk ("COMP".toList) ("1511".toList) 4 4) 2 3).2
      (by decide) (by decide)).1⟩

/-! ## C10: the empty string parses to the universal pattern -/

/-- C10: `CourseCode::parse("")` returns `Some` of the code with both
live counters 0 (school slots all filler dots, number slots all filler
hashes), and on the left-hand side of `==` / `is_match` that code
matches every CourseCode.  The hypothesis on `c` (live counters both 0
forces the display `"....####"`) holds for every code constructible
through the Rust API: `parse` only captures alphabetic/numeric chars
while counting them, `from_str` always sets counters (4,4), the other
constructors set a non-zero counter, and `adjust_pattern` refills
wiped slots with filler. -/
theorem C10_theorem :
    CourseCode.parse ("".toList)
      = some (CourseCode.mk ("....".toList) ("####".toList) 0 0)
    ∧ ∀ c : CourseCode,
        (c.num_of_match_school = 0 → c.num_of_match_code = 0 → c.toStr = "....####") →
        (CourseCode.mk ("....".toList) ("####".toList) 0 0).beq c = true
        ∧ (CourseCode.mk ("....".toList) ("####".toList) 0 0).is_match c = true := by
  refine ⟨by decide, ?_⟩
  intro c h
  have goal : (CourseCode.mk ("....".toList) ("####".toList) 0 0).beq c = true := by
    rw [CourseCode.beq]
    by_cases h1 : c.num_of_match_school = 0
    · by_cases h2 : c.num_of_match_code = 0
      · rw [h1, h2]
        simp only [beq_self_eq_true, Bool.and_self, if_true, ite_true]
        rw [h h1 h2]
        rfl
      · have : ((0 : Nat) == c.num_of_match_code) = false := by
          cases hq : (0 : Nat) == c.num_of_match_code with
          | false => rfl
          | true => exact absurd (eq_of_beq hq).symm h2
        simp [this]
    · have : ((0 : Nat) == c.num_of_match_school) = false := by
        cases hq : (0 : Nat) == c.num_of_match_school with
        | false => rfl
        | true => exact absurd (eq_of_beq hq).symm h1
      simp [this]
  exact ⟨goal, goal⟩

/-- C10 witness: the universal pattern matches the exact code COMP1511. -/
theorem C10_witness :
    (CourseCode.mk ("....".toList) ("####".toList) 0 0).beq
        (CourseCode.mk ("COMP".toList) ("1511".toList) 4 4) = true
    ∧ (CourseCode.mk ("....".toList) ("####".toList) 0 0).is_match
        (CourseCode.mk ("COMP".toList) ("1511".toList) 4 4) = true :=
  C10_theorem.2 (CourseCode.mk ("COMP".toList) ("1511".toList) 4 4)
    (fun h _ => absurd h (by decide))

/-! ## C3: fail-open policy -/

/-- C3: a course whose requirements field is `None` (unparseable raw
text, missing prerequisite label, UNSW Global school or Canberra campus
all produce this at load time, course.rs:525-532), and a Requirements
whose parsed tree is `None`, report eligible/satisfied for EVERY program
code, taken-course list and WAM: `Course::is_eligible`
(course.rs:276-278) and `Requirements::is_satisified`
(requirements.rs:225-226) both return `Ok(true)` without looking at the
student state. -/
theorem C3_theorem (c : course.Course) (r : Requirements) (pc : ProgramCode)
    (taken : List String) (wam : Option Nat) (cm : CourseManager) :
    (c.requirements = none → c.is_eligible pc taken wam cm = .ok true)
    ∧ (r.contents = none → r.is_satisified pc taken wam cm = .ok true) := by
  constructor
  · intro h
    rw [course.Course.is_eligible, h]
  · intro h
    rw [Requirements.is_satisified, h]

/-- C3 witness: a concrete requirement-free course and a concrete
tree-free Requirements are eligible/satisfied at a concrete student
state. -/
theorem C3_witness :
    (course.Course.mk ("Intro") (CourseCode.mk ("COMP".toList) ("1511".toList) 4 4)
        6 ("") 1 none).is_eligible (ProgramCode.mk ("3778".toList)) [("COMP1521")]
        (some 65) (CourseManager.mk []) = .ok true
    ∧ (Requirements.mk none ("Exclusion: MECH3211")).is_satisified
        (ProgramCode.mk ("3778".toList)) [] none (CourseManager.mk []) = .ok true :=
  ⟨(C3_theorem (course.Course.mk ("Intro")
        (CourseCode.mk ("COMP".toList) ("1511".toList) 4 4) 6 ("") 1 none)
      (Requirements.mk none ("Exclusion: MECH3211")) (ProgramCode.mk ("3778".toList))
      [("COMP1521")] (some 65) (CourseManager.mk [])).1 rfl,
    (C3_theorem (course.Course.mk ("Intro")
        (CourseCode.mk ("COMP".toList) ("1511".toList) 4 4) 6 ("") 1 none)
      (Requirements.mk none ("Exclusion: MECH3211")) (ProgramCode.mk ("3778".toList))
      [] none (CourseManager.mk [])).2 rfl⟩

/-! ## C6: quantifier sub-parsers -/

/-- C6: the claim states each quantifier sub-parser returns a structural
Err whenever its required follow-on tokens are missing OR WRONG-TYPED,
and that UOC-from "terminates at the first non-CODE/non-OR token".  Both
fail on the code: (1) `WamNode::parse` (requirements.rs:1001-1004) sets
the threshold only `if let Token::NUMBER` with no else branch, so a
wrong-typed token after OF is consumed silently and the parse SUCCEEDS
with threshold 0 (here: a comma after OF yields `Ok`); (2)
`UOCFromNode::parse` (requirements.rs:862-866) returns Err on a
non-CODE/non-OR/non-AND token instead of terminating (here: a comma
after a collected course code yields Err, not Ok). -/
theorem C6_counterexample :
    wamParse [Token.PREPOSITION Preposition.OF, Token.COMMA] = .ok (0, [])
    ∧ uocFromParse [Token.PREPOSITION Preposition.FROM,
        Token.CODE (Code.COURSE (CourseCode.mk ("COMP".toList) ("1511".toList) 4 4)),
        Token.COMMA]
      = .error ("ERROR (UOC-6): The expected token is a course code or OR operator") :=
  ⟨rfl, rfl⟩

theorem uocFromLoop_ok_ne_nil :
    ∀ (ts : List Token) (acc cs : List CourseCode) (rest : List Token),
      uocFromLoop acc ts = .ok (cs, rest) → cs ≠ [] := by
  intro ts
  induction ts with
  | nil =>
    intro acc cs rest h hnil
    subst hnil
    rw [uocFromLoop, uocFromFinish] at h
    by_cases he : acc.isEmpty
    · rw [if_pos he] at h
      exact absurd h (by simp)
    · rw [if_neg he] at h
      simp only [Except.ok.injEq, Prod.mk.injEq] at h
      have : acc = [] := by simpa using h.1.symm
      rw [this] at he
      exact he rfl
  | cons t rest' ih =>
    intro acc cs rest h hnil
    subst hnil
    rcases t with _ | b | n | k | o | p | cde | s
    · exact absurd h (by simp [uocFromLoop])
    · exact absurd h (by simp [uocFromLoop])
    · exact absurd h (by simp [uocFromLoop])
    · exact absurd h (by simp [uocFromLoop])
    · rcases o with _ | _
      · rw [uocFromLoop] at h
        exact ih acc [] rest h rfl
      · rw [uocFromLoop, uocFromFinish] at h
        by_cases he : acc.isEmpty
        · rw [if_pos he] at h
          exact absurd h (by simp)
        · rw [if_neg he] at h
          simp only [Except.ok.injEq, Prod.mk.injEq] at h
          have : acc = [] := by simpa using h.1.symm
          rw [this] at he
          exact he rfl
    · exact absurd h (by simp [uocFromLoop])
    · rcases cde with c | pcode
      · rw [uocFromLoop] at h
        exact ih (c :: acc) [] rest h rfl
      · exact absurd h (by simp [uocFromLoop])
    · exact absurd h (by simp [uocFromLoop])

/-- C6 (amended): after the blindly discarded leading token, UOC-at-level
requires a LEVEL keyword then a NUMBER and errors otherwise (exact ok
shape characterised both ways); WAM-of requires an OF preposition and at
least one following token (exact ok shape characterised both ways), but
a wrong-typed token in the NUMBER slot is consumed silently and the
parse succeeds with the threshold left at its initial 0; UOC-from
collects course-code tokens interleaved with OR operators, stops at end
of input or at an AND operator, errors on any other token (program
codes, commas, ...), and errors whenever zero course codes were
collected. -/
theorem C6_theorem :
    (∀ (t0 : Token) (lvl : Nat) (rest : List Token),
      uocAtLevelParse (t0 :: Token.KEYWORD Keyword.LEVEL :: Token.NUMBER lvl :: rest)
        = .ok (lvl, rest))
    ∧ (∀ ts : List Token, (∃ v, uocAtLevelParse ts = .ok v) ↔
        ∃ t0 lvl rest, ts = t0 :: Token.KEYWORD Keyword.LEVEL :: Token.NUMBER lvl :: rest)
    ∧ (∀ (t : Token) (rest : List Token),
        wamParse (Token.PREPOSITION Preposition.OF :: t :: rest)
          = .ok ((match t with | Token.NUMBER n => n | _ => 0), rest))
    ∧ (∀ ts : List Token, (∃ v, wamParse ts = .ok v) ↔
        ∃ t rest, ts = Token.PREPOSITION Preposition.OF :: t :: rest)
    ∧ (∀ (ts : List Token) (cs : List CourseCode) (rest : List Token),
        uocFromParse ts = .ok (cs, rest) → cs ≠ [])
    ∧ (∀ t0 : Token, uocFromParse [t0]
        = .error ("ERROR (UOC-3A): UOC from without following course code"))
    ∧ (∀ (t0 : Token) (c : CourseCode) (rest : List Token),
        uocFromParse (t0 :: Token.CODE (Code.COURSE c)
            :: Token.OPERATOR Operator.AND :: rest)
          = .ok ([c], rest))
    ∧ (∀ (t0 : Token) (c : CourseCode),
        uocFromParse [t0, Token.CODE (Code.COURSE c)] = .ok ([c], []))
    ∧ (∀ (t0 : Token) (c1 c2 : CourseCode) (rest : List Token),
        uocFromParse (t0 :: Token.CODE (Code.COURSE c1) :: Token.OPERATOR Operator.OR
            :: Token.CODE (Code.COURSE c2) :: Token.OPERATOR Operator.AND :: rest)
          = .ok ([c1, c2], rest))
    ∧ (∀ (t0 : Token) (c : CourseCode) (rest : List Token),
        uocFromParse (t0 :: Token.CODE (Code.COURSE c) :: Token.COMMA :: rest)
          = .error ("ERROR (UOC-6): The expected token is a course code or OR operator"))
    ∧ (∀ (t0 : Token) (p : ProgramCode) (rest : List Token),
        uocFromParse (t0 :: Token.CODE (Code.PROGRAM p) :: rest)
          = .error ("ERROR (UOC-4): One of the course code is not a course code")) := by
  refine ⟨fun t0 lvl rest => rfl, ?_, fun t rest => rfl, ?_, ?_,
    fun t0 => rfl, fun t0 c rest => rfl, fun t0 c => rfl, fun t0 c1 c2 rest => rfl,
    fun t0 c rest => rfl, fun t0 p rest => rfl⟩
  · intro ts
    constructor
    · rintro ⟨v, hv⟩
      match ts, hv with
      | t0 :: Token.KEYWORD Keyword.LEVEL :: Token.NUMBER lvl :: rest, _ =>
        exact ⟨t0, lvl, rest, rfl⟩
    · rintro ⟨t0, lvl, rest, rfl⟩
      exact ⟨(lvl, rest), rfl⟩
  · intro ts
    constructor
    · rintro ⟨v, hv⟩
      match ts, hv with
      | Token.PREPOSITION Preposition.OF :: t :: rest, _ => exact ⟨t, rest, rfl⟩
    · rintro ⟨t, rest, rfl⟩
      exact ⟨((match t with | Token.NUMBER n => n | _ => 0), rest), rfl⟩
  · intro ts cs rest h
    match ts, h with
    | [], h => exact absurd h (by simp [uocFromParse, uocFromLoop, uocFromFinish])
    | t0 :: rest', h => exact uocFromLoop_ok_ne_nil rest' [] cs rest h

/-- C6 witness: the amended theorem applied at a concrete UOC-from token
run (FROM followed by one course code), discharging the success
hypothesis of the nonempty-codes conjunct. -/
theorem C6_witness :
    ([CourseCode.mk ("COMP".toList) ("1511".toList) 4 4] : List CourseCode) ≠ [] :=
  C6_theorem.2.2.2.2.1
    [Token.PREPOSITION Preposition.FROM,
      Token.CODE (Code.COURSE (CourseCode.mk ("COMP".toList) ("1511".toList) 4 4))]
    [CourseCode.mk ("COMP".toList) ("1511".toList) 4 4] [] rfl

/-! ## C5: the cleaning pass -/

/-- C5: the claim describes the recognised prerequisite labels as
"case/hyphen variants" of Prerequisite(s):/Pre-requisite(s):.  Matching
is case-sensitive (requirements.rs:249-252 compares the four exact
strings), so the lowercase label is NOT recognised: cleaning
"prerequisites: COMP1511" yields "" (no requirement) although the claim
predicts the substring "COMP1511" is kept. -/
theorem C5_counterexample :
    Requirements.clean ("prerequisites: COMP1511") = ""
    ∧ (Requirements.try_new ("prerequisites: COMP1511")).map Requirements.render
      = some ("") :=
  ⟨rfl, rfl⟩

theorem findLine_none :
    ∀ ls : List (List Char),
      (∀ line ∈ ls, Requirements.extractLine (trimL line) = none) →
      Requirements.findLine ls = [] := by
  intro ls h
  induction ls with
  | nil => rfl
  | cons l rest ih =>
    rw [Requirements.findLine, h l (List.mem_cons_self l rest)]
    exact ih (fun line hl => h line (List.mem_cons_of_mem l hl))

/-- C5 (amended): the cleaning pass keeps only the substring following
the first recognised prerequisite label — one of the four EXACT
case-sensitive forms `Pre-requisites:`, `Pre-requisite:`,
`Prerequisites:`, `Prerequisite:` — on whichever newline (`<br/>`)
separated line starts with it, discarding earlier lines and all other
sibling lines (e.g. `Exclusion:`, `Co-requisite:`); if no line carries
such a label the cleaned result is the empty string and the resulting
Requirements has no constraint (renders to "" and is always
satisfied). -/
theorem C5_theorem :
    (∀ raw : String,
      (∀ line ∈ splitNl (Requirements.cleanReplacements raw.toList),
        Requirements.extractLine (trimL line) = none) →
      Requirements.clean raw = "")
    ∧ Requirements.clean ("Exclusion: MECH3211, MTRN3212") = ""
    ∧ (∀ (pc : ProgramCode) (taken : List String) (wam : Option Nat) (cm : CourseManager),
        (Requirements.try_new ("Exclusion: MECH3211, MTRN3212")).map
          (fun r => (r.render, r.is_satisified pc taken wam cm))
          = some ("", .ok true))
    ∧ Requirements.clean
        ("Exclusion: MECH3211, MTRN3212<br/>Prerequisites: MATH1231 OR DPST1014 OR MATH1241")
        = "MATH1231 OR DPST1014 OR MATH1241"
    ∧ Requirements.clean ("Prerequisite: COMP1511 good<br/>Co-requisite: COMP1521")
        = "COMP1511 good" := by
  refine ⟨?_, rfl, fun pc taken wam cm => rfl, rfl, rfl⟩
  intro raw h
  rw [Requirements.clean, findLine_none _ h]

/-- C5 witness: the amended theorem's no-label conjunct applied at a
concrete label-free input. -/
theorem C5_witness : Requirements.clean ("Hello world") = "" :=
  C5_theorem.1 ("Hello world") (by decide)

/-! ## C2: right-associative operator chains -/

/-- C2: binary operator chains without parentheses or commas parse
right-associatively: the OPERATOR arm of `Requirements::do_parse`
(requirements.rs:374-410) takes the single buffered node as left operand
and recursively parses the whole remaining clause up to the next comma
or end as its right subtree.  Stated generically for `A op1 B op2 C`
(which yields `A op1 (B op2 C)`), for the comma bound (`A op B , C`
yields a two-item list whose first item is `(A op B)`), and for the
claim's concrete five-code chain rendered through
`Requirements::try_new`. -/
theorem C2_theorem :
    (∀ (a b c : Code) (op1 op2 : Operator),
      Requirements.parse [Token.CODE a, Token.OPERATOR op1, Token.CODE b,
          Token.OPERATOR op2, Token.CODE c]
        = .ok (some (Node.binary (Node.code a)
            (Node.binary (Node.code b) (Node.code c) op2) op1)))
    ∧ (∀ (a b c : Code) (op : Operator),
      Requirements.parse [Token.CODE a, Token.OPERATOR op, Token.CODE b,
          Token.COMMA, Token.CODE c]
        = .ok (some (Node.list [Node.binary (Node.code a) (Node.code b) op,
            Node.code c])))
    ∧ (Requirements.try_new
        ("Prerequisites: COMP1511 and COMP1521 OR COMP1531 OR COMP2521 And COMM1999")).map
        Requirements.render
      = some ("(COMP1511 and (COMP1521 or (COMP1531 or (COMP2521 and COMM1999))))") := by
  exact ⟨fun a b c op1 op2 => rfl, fun a b c op => rfl, rfl⟩

/-! ## C4: List swallows child errors, Binary propagates them -/

theorem evulateAll_eq_true_iff (cs : List Node) (pc : ProgramCode)
    (taken : List String) (wam : Option Nat) (cm : CourseManager) :
    evulateAll cs pc taken wam cm = true ↔
      ∀ n ∈ cs, evulate n pc taken wam cm = .ok true := by
  induction cs with
  | nil => simp [evulateAll]
  | cons n rest ih =>
    simp only [evulateAll, Bool.and_eq_true, List.mem_cons]
    constructor
    · rintro ⟨h1, h2⟩ m hm
      rcases hm with rfl | hm
      · cases he : evulate m pc taken wam cm with
        | ok b =>
          rw [he] at h1
          simp only at h1
          rw [h1]
        | error e =>
          rw [he] at h1
          simp at h1
      · exact ih.mp h2 m hm
    · intro h
      refine ⟨?_, ih.mpr (fun m hm => h m (Or.inr hm))⟩
      rw [h n (Or.inl rfl)]

/-- C4: evaluation of a List node never returns Err — it returns
`Ok(true)` iff every child evaluates to `Ok(true)`, children that error
being counted as false (`unwrap_or(false)`, requirements.rs:622-625) —
whereas a Binary AND/OR node propagates an Err of an evaluated operand
to the caller through `?` (requirements.rs:681-704): a left error always
propagates, a right error propagates when AND's left was true / OR's
left was false. -/
theorem C4_theorem (pc : ProgramCode) (taken : List String) (wam : Option Nat)
    (cm : CourseManager) (cs : List Node) (l r : Node) (e : String) :
    (∃ b, evulate (Node.list cs) pc taken wam cm = .ok b)
    ∧ (evulate (Node.list cs) pc taken wam cm = .ok true ↔
        ∀ n ∈ cs, evulate n pc taken wam cm = .ok true)
    ∧ (∀ op, evulate l pc taken wam cm = .error e →
        evulate (Node.binary l r op) pc taken wam cm = .error e)
    ∧ (evulate l pc taken wam cm = .ok true → evulate r pc taken wam cm = .error e →
        evulate (Node.binary l r Operator.AND) pc taken wam cm = .error e)
    ∧ (evulate l pc taken wam cm = .ok false → evulate r pc taken wam cm = .error e →
        evulate (Node.binary l r Operator.OR) pc taken wam cm = .error e) := by
  refine ⟨⟨evulateAll cs pc taken wam cm, rfl⟩, ?_, ?_, ?_, ?_⟩
  · rw [show evulate (Node.list cs) pc taken wam cm
        = .ok (evulateAll cs pc taken wam cm) from rfl]
    simp only [Except.ok.injEq]
    exact evulateAll_eq_true_iff cs pc taken wam cm
  · intro op h
    cases op <;> simp [evulate, h]
  · intro h1 h2
    simp [evulate, h1, h2]
  · intro h1 h2
    simp [evulate, h1, h2]

/-- C4 witness: the theorem applied at a list holding one erroring UOC
child (a taken course "BAD" that is not a course code) and at the AND
node propagating that same error. -/
theorem C4_witness :
    (∃ b, evulate (Node.list [Node.uoc 6]) (ProgramCode.mk ("3778".toList))
        [("BAD")] none (CourseManager.mk []) = .ok b)
    ∧ evulate (Node.binary (Node.uoc 6) (Node.text ("t")) Operator.AND)
        (ProgramCode.mk ("3778".toList)) [("BAD")] none (CourseManager.mk [])
      = .error ("Given BAD is not a Course Code") :=
  ⟨(C4_theorem (ProgramCode.mk ("3778".toList)) [("BAD")] none (CourseManager.mk [])
      [Node.uoc 6] (Node.uoc 6) (Node.text ("t")) ("Given BAD is not a Course Code")).1,
    (C4_theorem (ProgramCode.mk ("3778".toList)) [("BAD")] none (CourseManager.mk [])
      [Node.uoc 6] (Node.uoc 6) (Node.text ("t")) ("Given BAD is not a Course Code")
      ).2.2.1 Operator.AND rfl⟩

/-! ## C9: specialisation back-reference -/

theorem assocLookup_pushProgram (k sc : String) (pc : ProgramCode) :
    ∀ specs : List (String × program.Specialisation),
      assocLookup k (pushProgram specs sc pc)
        = (assocLookup k specs).map
            (fun s => if k == sc then { s with programs := s.programs ++ [pc] } else s) := by
  intro specs
  induction specs with
  | nil => rfl
  | cons kv rest ih =>
    by_cases hsc : (kv.1 == sc) = true
    · by_cases hk : (k == kv.1) = true
      · have hks : (k == sc) = true := by
          rw [beq_iff_eq] at hsc hk ⊢
          rw [hk, hsc]
        simp [pushProgram, assocLookup, hsc, hk, hks]
      · simp [pushProgram, assocLookup, hsc, hk, ih]
    · by_cases hk : (k == kv.1) = true
      · have hks : (k == sc) = false := by
          rw [beq_iff_eq] at hk
          subst hk
          exact eq_false_of_ne_true hsc
        simp [pushProgram, assocLookup, hsc, hk, hks]
      · simp [pushProgram, assocLookup, hsc, hk, ih]

theorem pushProgram_self (sc : String) (pc : ProgramCode)
    (specs : List (String × program.Specialisation)) (s : program.Specialisation)
    (h : assocLookup sc (pushProgram specs sc pc) = some s) : pc ∈ s.programs := by
  rw [assocLookup_pushProgram] at h
  cases hb : assocLookup sc specs with
  | none => rw [hb] at h; exact absurd h (by simp)
  | some t =>
    rw [hb] at h
    simp only [Option.map] at h
    rw [Option.some.injEq, beq_self_eq_true, if_pos rfl] at h
    rw [← h]
    simp

theorem pushProgram_preserve (sc sc' : String) (pc pc' : ProgramCode)
    (specs : List (String × program.Specialisation))
    (hGood : ∀ s, assocLookup sc specs = some s → pc ∈ s.programs) :
    ∀ s', assocLookup sc (pushProgram specs sc' pc') = some s' → pc ∈ s'.programs := by
  intro s' h
  rw [assocLookup_pushProgram] at h
  cases hb : assocLookup sc specs with
  | none => rw [hb] at h; exact absurd h (by simp)
  | some t =>
    rw [hb] at h
    simp only [Option.map] at h
    rw [Option.some.injEq] at h
    have hpc : pc ∈ t.programs := hGood t hb
    by_cases hcond : (sc == sc') = true
    · rw [hcond, if_pos rfl] at h
      rw [← h]
      simp [hpc]
    · rw [eq_false_of_ne_true hcond, if_neg (by simp)] at h
      rw [← h]
      exact hpc

theorem Good_foldl_push (sc : String) (pc : ProgramCode) (q : ProgramCode) :
    ∀ (refs : List String) (specs : List (String × program.Specialisation)),
      (∀ s, assocLookup sc specs = some s → pc ∈ s.programs) →
      ∀ s, assocLookup sc (refs.foldl (fun st x => pushProgram st x q) specs) = some s →
        pc ∈ s.programs := by
  intro refs
  induction refs with
  | nil => intro specs hGood; exact hGood
  | cons r rest ih =>
    intro specs hGood
    exact ih (pushProgram specs r q) (pushProgram_preserve sc r pc q specs hGood)

theorem Good_after_refs (sc : String) (q : ProgramCode) :
    ∀ (refs : List String) (specs : List (String × program.Specialisation)),
      sc ∈ refs →
      ∀ s, assocLookup sc (refs.foldl (fun st x => pushProgram st x q) specs) = some s →
        q ∈ s.programs := by
  intro refs
  induction refs with
  | nil => intro specs hmem; exact absurd hmem (List.not_mem_nil sc)
  | cons r rest ih =>
    intro specs hmem
    rcases List.mem_cons.mp hmem with rfl | hmem'
    · exact Good_foldl_push sc q q rest (pushProgram specs sc q)
        (fun s hs => pushProgram_self sc q specs s hs)
    · exact ih (pushProgram specs r q) hmem'

theorem Good_applyProgram (sc : String) (pc : ProgramCode) (q : program.Program)
    (specs : List (String × program.Specialisation))
    (hGood : ∀ s, assocLookup sc specs = some s → pc ∈ s.programs) :
    ∀ s, assocLookup sc (ProgramManager.applyProgram specs q) = some s →
      pc ∈ s.programs :=
  Good_foldl_push sc pc q.code q.referencedSpecCodes specs hGood

theorem Good_foldl_apply (sc : String) (pc : ProgramCode) :
    ∀ (progs : List (String × program.Program))
      (specs : List (String × program.Specialisation)),
      (∀ s, assocLookup sc specs = some s → pc ∈ s.programs) →
      ∀ s, assocLookup sc
          (progs.foldl (fun st kv => ProgramManager.applyProgram st kv.2) specs)
          = some s → pc ∈ s.programs := by
  intro progs
  induction progs with
  | nil => intro specs hGood; exact hGood
  | cons kv rest ih =>
    intro specs hGood
    exact ih (ProgramManager.applyProgram specs kv.2)
      (Good_applyProgram sc pc kv.2 specs hGood)

theorem mapping_fold_mem (sc : String) (pKey : String) (p : program.Program)
    (href : sc ∈ p.referencedSpecCodes) :
    ∀ (progs : List (String × program.Program))
      (specs : List (String × program.Specialisation)),
      (pKey, p) ∈ progs →
      ∀ s, assocLookup sc
          (progs.foldl (fun st kv => ProgramManager.applyProgram st kv.2) specs)
          = some s → p.code ∈ s.programs := by
  intro progs
  induction progs with
  | nil => intro specs hmem; exact absurd hmem (List.not_mem_nil (pKey, p))
  | cons kv rest ih =>
    intro specs hmem
    rcases List.mem_cons.mp hmem with heq | hmem'
    · have hp : kv.2 = p := congrArg Prod.snd heq.symm
      rw [List.foldl_cons, hp]
      exact Good_foldl_apply sc p.code rest (ProgramManager.applyProgram specs p)
        (fun t ht => Good_after_refs sc p.code p.referencedSpecCodes specs href t ht)
    · rw [List.foldl_cons]
      exact ih (ProgramManager.applyProgram specs kv.2) hmem'

theorem expandFiltered_fails (pm : ProgramManager) (code : ProgramCode) :
    ∀ (codes : List String) (sc : String) (s : program.Specialisation),
      sc ∈ codes →
      pm.get_specialiastion sc = .ok s →
      s.programs.contains code = false →
      ∃ e, expandFiltered pm code codes = .error e := by
  intro codes
  induction codes with
  | nil => intro sc s hmem; exact absurd hmem (List.not_mem_nil sc)
  | cons c rest ih =>
    intro sc s hmem hspec hcont
    rcases List.mem_cons.mp hmem with rfl | hmem'
    · exact ⟨("Specialisation " ++ sc ++ " is not allowed for program " ++ code.toStr),
        by simp [expandFiltered, hspec, hcont]⟩
    · cases hgc : pm.get_specialiastion c with
      | error e => exact ⟨e, by simp [expandFiltered, hgc]⟩
      | ok sp =>
        by_cases hc : sp.programs.contains code = true
        · obtain ⟨e, he⟩ := ih sc s hmem' hspec hcont
          exact ⟨e, by simp [expandFiltered, hgc, hc, he]⟩
        · exact ⟨("Specialisation " ++ c ++ " is not allowed for program " ++ code.toStr),
            by simp [expandFiltered, hgc, eq_false_of_ne_true hc]⟩

theorem expandFiltered_first_offender (pm : ProgramManager) (code : ProgramCode) :
    ∀ (pre : List String) (sc : String) (rest : List String) (s : program.Specialisation),
      (∀ c' ∈ pre, ∃ s', pm.get_specialiastion c' = .ok s'
        ∧ s'.programs.contains code = true) →
      pm.get_specialiastion sc = .ok s →
      s.programs.contains code = false →
      expandFiltered pm code (pre ++ sc :: rest)
        = .error ("Specialisation " ++ sc ++ " is not allowed for program "
            ++ code.toStr) := by
  intro pre
  induction pre with
  | nil =>
    intro sc rest s _ hspec hcont
    simp [expandFiltered, hspec, hcont]
  | cons c' pre' ih =>
    intro sc rest s hpre hspec hcont
    obtain ⟨s', hs', hc'⟩ := hpre c' (List.mem_cons_self c' pre')
    have hrec := ih sc rest s (fun x hx => hpre x (List.mem_cons_of_mem c' hx))
      hspec hcont
    simp [expandFiltered, hs', hc', hrec]

/-- C9: after the one-time back-populate pass
(`mapping_program_into_specialisation`), every specialisation present in
the specialisation map that is referenced by any program's
SpecialisationComponent (any tier, any direction) carries that program's
code in its `programs()` list; and `get_program_structure` with a
specialisation filter fails whenever a listed specialisation does not
carry the target program's code in that list — the loop stops at the
first failing listed code, and when the offender is the first failing
one (every earlier listed code resolves and validates) the returned
error is EXACTLY the message naming the offending specialisation code
and the program, `"Specialisation {sc} is not allowed for program
{code}"` (search.rs:270-274). -/
theorem C9_theorem :
    (∀ (pm : ProgramManager) (pKey : String) (p : program.Program) (sc : String)
        (s : program.Specialisation),
      (pKey, p) ∈ pm.programs →
      sc ∈ p.referencedSpecCodes →
      assocLookup sc (pm.mapping_program_into_specialisation).specialiastions = some s →
      p.code ∈ s.programs)
    ∧ (∀ (pm : ProgramManager) (code : ProgramCode) (p : program.Program)
        (codes : List String) (sc : String) (s : program.Specialisation),
      pm.get_program code = .ok p →
      sc ∈ codes →
      pm.get_specialiastion sc = .ok s →
      s.programs.contains code = false →
      ∃ e, pm.get_program_structure code true (some codes) = .error e)
    ∧ (∀ (pm : ProgramManager) (code : ProgramCode) (p : program.Program)
        (pre rest : List String) (sc : String) (s : program.Specialisation),
      pm.get_program code = .ok p →
      (∀ c' ∈ pre, ∃ s', pm.get_specialiastion c' = .ok s'
        ∧ s'.programs.contains code = true) →
      pm.get_specialiastion sc = .ok s →
      s.programs.contains code = false →
      pm.get_program_structure code true (some (pre ++ sc :: rest))
        = .error ("Specialisation " ++ sc ++ " is not allowed for program "
            ++ code.toStr)) := by
  refine ⟨?_, ?_, ?_⟩
  · intro pm pKey p sc s hmem href hlook
    exact mapping_fold_mem sc pKey p href pm.programs pm.specialiastions hmem s hlook
  · intro pm code p codes sc s hprog hmem hspec hcont
    obtain ⟨e, he⟩ := expandFiltered_fails pm code codes sc s hmem hspec hcont
    exact ⟨e, by simp [ProgramManager.get_program_structure, hprog, he]⟩
  · intro pm code p pre rest sc s hprog hpre hspec hcont
    have hexp := expandFiltered_first_offender pm code pre sc rest s hpre hspec hcont
    simp [ProgramManager.get_program_structure, hprog, hexp]

/-- C9 witness: a one-program, one-specialisation manager.  After the
back-populate pass the specialisation COMPA1 referenced by program 3778
carries 3778 in its programs list; and on the un-populated manager the
filtered structure query for COMPA1 (whose programs list is empty)
fails, with exactly the error message naming COMPA1 and 3778. -/
theorem C9_witness :
    (ProgramCode.mk ("3778".toList))
      ∈ (program.Specialisation.mk ("CS") program.SpecialisationType.Major 96
          ("COMPA1") [] none [ProgramCode.mk ("3778".toList)]).programs
    ∧ (∃ e,
      (ProgramManager.mk
          [(("3778"), program.Program.mk ("T") (ProgramCode.mk ("3778".toList)) 192 4
              ("") ("") none
              (some (program.SpecialisationComponent.mk
                (some [(("CS"), program.SpecialisationView.mk [("COMPA1")] ("") false)])
                none none)) [])]
          [(("COMPA1"), program.Specialisation.mk ("CS") program.SpecialisationType.Major
              96 ("COMPA1") [] none [])]).get_program_structure
        (ProgramCode.mk ("3778".toList)) true (some [("COMPA1")]) = .error e)
    ∧ (ProgramManager.mk
          [(("3778"), program.Program.mk ("T") (ProgramCode.mk ("3778".toList)) 192 4
              ("") ("") none
              (some (program.SpecialisationComponent.mk
                (some [(("CS"), program.SpecialisationView.mk [("COMPA1")] ("") false)])
                none none)) [])]
          [(("COMPA1"), program.Specialisation.mk ("CS") program.SpecialisationType.Major
              96 ("COMPA1") [] none [])]).get_program_structure
        (ProgramCode.mk ("3778".toList)) true (some [("COMPA1")])
      = .error ("Specialisation COMPA1 is not allowed for program 3778") :=
  ⟨C9_theorem.1
      (ProgramManager.mk
        [(("3778"), program.Program.mk ("T") (ProgramCode.mk ("3778".toList)) 192 4
            ("") ("") none
            (some (program.SpecialisationComponent.mk
              (some [(("CS"), program.SpecialisationView.mk [("COMPA1")] ("") false)])
              none none)) [])]
        [(("COMPA1"), program.Specialisation.mk ("CS") program.SpecialisationType.Major
            96 ("COMPA1") [] none [])])
      ("3778")
      (program.Program.mk ("T") (ProgramCode.mk ("3778".toList)) 192 4 ("") ("") none
        (some (program.SpecialisationComponent.mk
          (some [(("CS"), program.SpecialisationView.mk [("COMPA1")] ("") false)])
          none none)) [])
      ("COMPA1")
      (program.Specialisation.mk ("CS") program.SpecialisationType.Major 96
        ("COMPA1") [] none [ProgramCode.mk ("3778".toList)])
      (List.mem_cons_self _ _) (List.mem_cons_self _ _) rfl,
    C9_theorem.2.1
      (ProgramManager.mk
        [(("3778"), program.Program.mk ("T") (ProgramCode.mk ("3778".toList)) 192 4
            ("") ("") none
            (some (program.SpecialisationComponent.mk
              (some [(("CS"), program.SpecialisationView.mk [("COMPA1")] ("") false)])
              none none)) [])]
        [(("COMPA1"), program.Specialisation.mk ("CS") program.SpecialisationType.Major
            96 ("COMPA1") [] none [])])
      (ProgramCode.mk ("3778".toList))
      (program.Program.mk ("T") (ProgramCode.mk ("3778".toList)) 192 4 ("") ("") none
        (some (program.SpecialisationComponent.mk
          (some [(("CS"), program.SpecialisationView.mk [("COMPA1")] ("") false)])
          none none)) [])
      [("COMPA1")] ("COMPA1")
      (program.Specialisation.mk ("CS") program.SpecialisationType.Major 96
        ("COMPA1") [] none [])
      rfl (List.mem_cons_self _ _) rfl rfl,
    C9_theorem.2.2
      (ProgramManager.mk
        [(("3778"), program.Program.mk ("T") (ProgramCode.mk ("3778".toList)) 192 4
            ("") ("") none
            (some (program.SpecialisationComponent.mk
              (some [(("CS"), program.SpecialisationView.mk [("COMPA1")] ("") false)])
              none none)) [])]
        [(("COMPA1"), program.Specialisation.mk ("CS") program.SpecialisationType.Major
            96 ("COMPA1") [] none [])])
      (ProgramCode.mk ("3778".toList))
      (program.Program.mk ("T") (ProgramCode.mk ("3778".toList)) 192 4 ("") ("") none
        (some (program.SpecialisationComponent.mk
          (some [(("CS"), program.SpecialisationView.mk [("COMPA1")] ("") false)])
          none none)) [])
      [] [] ("COMPA1")
      (program.Specialisation.mk ("CS") program.SpecialisationType.Major 96
        ("COMPA1") [] none [])
      rfl (fun c' hc' => absurd hc' (List.not_mem_nil c')) rfl rfl⟩

/-! ## C8: pool membership -/

theorem is_course_code_of_not_pattern (c : CourseCode) (h : c.is_pattern = false) :
    c.is_course_code = true := by
  rw [CourseCode.is_pattern] at h
  rw [CourseCode.is_course_code]
  rcases Bool.or_eq_false_iff.mp h with ⟨h1, h2⟩
  simp only [bne_eq_false_iff_eq] at h1 h2
  simp [h1, h2]

theorem collectSpec_mem (pm : ProgramManager) :
    ∀ (scs : List String) (L : List program.Course),
      pm.collectSpecCourses scs = .ok L →
      ∀ sc ∈ scs, ∀ spc, pm.get_specialiastion sc = .ok spc →
        ∀ x ∈ (spc.list_courses.map Prod.snd).flatten, x ∈ L := by
  intro scs
  induction scs with
  | nil => intro L _ sc hmem; exact absurd hmem (List.not_mem_nil sc)
  | cons c' rest ih =>
    intro L hcol sc hmem spc hspec x hx
    rw [ProgramManager.collectSpecCourses] at hcol
    cases hgc : pm.get_specialiastion c' with
    | error e => rw [hgc] at hcol; exact absurd hcol (by simp)
    | ok sp' =>
      rw [hgc] at hcol
      cases hrest : ProgramManager.collectSpecCourses pm rest with
      | error e => rw [hrest] at hcol; exact absurd hcol (by simp)
      | ok more =>
        rw [hrest] at hcol
        simp only [Except.ok.injEq] at hcol
        rw [← hcol]
        rcases List.mem_cons.mp hmem with rfl | hmem'
        · have : spc = sp' := by
            rw [hspec] at hgc
            exact (Except.ok.injEq _ _).mp hgc
          rw [this] at hx
          exact List.mem_append_left _ hx
        · exact List.mem_append_right _ (ih more hrest sc hmem' spc hspec x hx)

theorem new_pool_code_mem (codeF patternF : List CourseCode) (cm : CourseManager)
    (c : CourseCode) (X : course.Course) (hc : c ∈ codeF)
    (hres : cm.get_course c = .ok X) :
    X ∈ (SearchPool.new codeF patternF).pool cm := by
  have hne : codeF.length ≠ 0 := by
    intro h0
    rw [List.length_eq_zero] at h0
    rw [h0] at hc
    exact List.not_mem_nil c hc
  have hmemres : X ∈ (SearchPool.new codeF patternF).resolve_code_pool cm := by
    rw [SearchPool.resolve_code_pool, SearchPool.new]
    simp only [if_neg hne]
    rw [List.mem_filterMap]
    exact ⟨c, by simpa using hc, by rw [hres]⟩
  by_cases hp : patternF.length = 0
  · have hlevel : (SearchPool.new codeF patternF).pool_level
        = SearchPoolLevel.CourseCodeOnly := by
      rw [SearchPool.new]
      simp [hp]
    rw [SearchPool.pool, hlevel]
    exact hmemres
  · have hlevel : (SearchPool.new codeF patternF).pool_level
        = SearchPoolLevel.Hybrid := by
      rw [SearchPool.new]
      simp [hp, hne]
    rw [SearchPool.pool, hlevel]
    exact List.mem_append_left _ hmemres

theorem new_pool_pattern_mem (codeF patternF : List CourseCode) (cm : CourseManager)
    (c : CourseCode) (k : String) (X : course.Course) (hc : c ∈ patternF)
    (hcat : (k, X) ∈ cm.courses) (hm : c.is_match X.code = true) :
    X ∈ (SearchPool.new codeF patternF).pool cm := by
  have hne : patternF.length ≠ 0 := by
    intro h0
    rw [List.length_eq_zero] at h0
    rw [h0] at hc
    exact List.not_mem_nil c hc
  have hmemres : X ∈ (SearchPool.new codeF patternF).resolve_pattern_pool cm := by
    rw [SearchPool.resolve_pattern_pool, SearchPool.new]
    simp only [if_neg hne]
    rw [List.mem_map]
    refine ⟨(k, X), ?_, rfl⟩
    rw [List.mem_filter]
    refine ⟨hcat, ?_⟩
    rw [List.any_eq_true]
    exact ⟨c, by simpa using hc, hm⟩
  by_cases hq : codeF.length = 0
  · have hlevel : (SearchPool.new codeF patternF).pool_level
        = SearchPoolLevel.CoursePatternOnly := by
      rw [SearchPool.new]
      simp [hq, hne]
    rw [SearchPool.pool, hlevel]
    exact hmemres
  · have hlevel : (SearchPool.new codeF patternF).pool_level
        = SearchPoolLevel.Hybrid := by
      rw [SearchPool.new]
      simp [hq, hne]
    rw [SearchPool.pool, hlevel]
    exact List.mem_append_right _ hmemres

/-- C8: the SearchPool of `get_course_pool`, resolved against the course
catalog by `SearchPool::pool`, contains every catalog course explicitly
listed — directly or inside an "alternative" OR-list — in the program's
own CourseComponents and in the CourseComponents of every specialisation
reachable from every tier/direction of the program's
SpecialisationComponent: an exact listed code that resolves in the
catalog contributes that course, a listed pattern contributes every
catalog course it matches; opaque text entries contribute no codes, and
an entry of the flattened set goes to the pattern subset iff
`CourseCode::is_pattern()` (and to the exact subset iff not). -/
theorem C8_theorem (pm : ProgramManager) (pcode : ProgramCode) (sp : SearchPool)
    (cm : CourseManager) (p : program.Program) (c : CourseCode) :
    (∀ t, (program.Course.Text t).to_course_codes = [])
    ∧ (∀ (l : List CourseCode) (d : CourseCode), d ∈ l →
        ((d ∈ (SearchPool.new_from_set l).course_pattern_pool.getD [] ↔
            d.is_pattern = true)
         ∧ (d ∈ (SearchPool.new_from_set l).course_code_pool.getD [] ↔
            d.is_pattern = false)))
    ∧ (pm.get_course_pool pcode = .ok sp →
       pm.get_program pcode = .ok p →
       ((∃ kv ∈ p.list_courses.getD [], ∃ entry ∈ kv.2,
            c ∈ program.Course.to_course_codes entry)
        ∨ (∃ sc ∈ (match p.list_specialisations with
              | none => ([] : List String)
              | some (ma, mi, ho) => ((ma ++ mi ++ ho).map Prod.snd).flatten),
            ∃ spc, pm.get_specialiastion sc = .ok spc
              ∧ ∃ kv ∈ spc.list_courses, ∃ entry ∈ kv.2,
                  c ∈ program.Course.to_course_codes entry)) →
       ((c.is_pattern = false →
          ∀ X, assocLookup c.toStr cm.courses = some X → X ∈ sp.pool cm)
        ∧ (c.is_pattern = true →
          ∀ (k : String) (X : course.Course), (k, X) ∈ cm.courses →
            c.is_match X.code = true → X ∈ sp.pool cm))) := by
  refine ⟨fun t => rfl, ?_, ?_⟩
  · intro l d hd
    constructor
    · rw [SearchPool.new_from_set, SearchPool.new]
      by_cases hp : (l.filter (fun c => c.is_pattern)).length = 0
      · simp only [hp, if_pos rfl]
        constructor
        · intro h; exact absurd h (by simp)
        · intro h
          rw [List.length_eq_zero] at hp
          have : d ∈ l.filter (fun c => c.is_pattern) := by
            rw [List.mem_filter]; exact ⟨hd, h⟩
          rw [hp] at this
          exact absurd this (List.not_mem_nil d)
      · simp only [if_neg hp, Option.getD_some]
        rw [List.mem_filter]
        constructor
        · rintro ⟨_, h⟩; exact h
        · intro h; exact ⟨hd, h⟩
    · rw [SearchPool.new_from_set, SearchPool.new]
      by_cases hq : (l.filter (fun c => !c.is_pattern)).length = 0
      · simp only [hq, if_pos rfl]
        constructor
        · intro h; exact absurd h (by simp)
        · intro h
          rw [List.length_eq_zero] at hq
          have : d ∈ l.filter (fun c => !c.is_pattern) := by
            rw [List.mem_filter]; simp [hd, h]
          rw [hq] at this
          exact absurd this (List.not_mem_nil d)
      · simp only [if_neg hq, Option.getD_some]
        rw [List.mem_filter]
        constructor
        · rintro ⟨_, h⟩; simpa using h
        · intro h; simp [hd, h]
  · intro hpool hprog hlisted
    simp only [ProgramManager.get_course_pool, hprog] at hpool
    cases hcol : pm.collectSpecCourses
        (match p.list_specialisations with
          | none => []
          | some (ma, mi, ho) => ((ma ++ mi ++ ho).map Prod.snd).flatten) with
    | error e => rw [hcol] at hpool; exact absurd hpool (by simp)
    | ok specCourses =>
      rw [hcol] at hpool
      simp only [Except.ok.injEq] at hpool
      have hmemall : c ∈ (((((p.list_courses.getD []).map Prod.snd).flatten
          ++ specCourses).map program.Course.to_course_codes).flatten) := by
        rw [List.mem_flatten]
        rcases hlisted with ⟨kv, hkv, entry, hentry, hc⟩ | ⟨sc, hsc, spc, hspec, kv, hkv, entry, hentry, hc⟩
        · refine ⟨program.Course.to_course_codes entry, ?_, hc⟩
          rw [List.mem_map]
          refine ⟨entry, ?_, rfl⟩
          refine List.mem_append_left _ ?_
          rw [List.mem_flatten]
          exact ⟨kv.2, List.mem_map_of_mem Prod.snd hkv, hentry⟩
        · refine ⟨program.Course.to_course_codes entry, ?_, hc⟩
          rw [List.mem_map]
          refine ⟨entry, ?_, rfl⟩
          refine List.mem_append_right _ ?_
          refine collectSpec_mem pm _ specCourses hcol sc hsc spc hspec entry ?_
          rw [List.mem_flatten]
          exact ⟨kv.2, List.mem_map_of_mem Prod.snd hkv, hentry⟩
      rw [← hpool]
      constructor
      · intro hpat X hX
        have hcF : c ∈ (((((p.list_courses.getD []).map Prod.snd).flatten
            ++ specCourses).map program.Course.to_course_codes).flatten).filter
              (fun c => !c.is_pattern) := by
          rw [List.mem_filter]
          exact ⟨hmemall, by simp [hpat]⟩
        have hres : cm.get_course c = .ok X := by
          rw [CourseManager.get_course,
            if_neg (by simp [is_course_code_of_not_pattern c hpat]), hX]
        exact new_pool_code_mem _ _ cm c X hcF hres
      · intro hpat k X hX hm
        have hcF : c ∈ (((((p.list_courses.getD []).map Prod.snd).flatten
            ++ specCourses).map program.Course.to_course_codes).flatten).filter
              (fun c => c.is_pattern) := by
          rw [List.mem_filter]
          exact ⟨hmemall, hpat⟩
        exact new_pool_pattern_mem _ _ cm c k X hcF hX hm

/-- C8 witness: a one-program manager whose single core component lists
COMP1511; the pool produced by `get_course_pool`, resolved against a
one-course catalog, contains that catalog course. -/
theorem C8_witness :
    course.Course.mk ("Intro") (CourseCode.mk ("COMP".toList) ("1511".toList) 4 4)
        6 ("") 1 none
      ∈ (SearchPool.mk (some [CourseCode.mk ("COMP".toList) ("1511".toList) 4 4])
          none SearchPoolLevel.CourseCodeOnly).pool
        (CourseManager.mk [(("COMP1511"),
          course.Course.mk ("Intro") (CourseCode.mk ("COMP".toList) ("1511".toList) 4 4)
            6 ("") 1 none)]) :=
  ((C8_theorem
      (ProgramManager.mk
        [(("3778"), program.Program.mk ("T") (ProgramCode.mk ("3778".toList)) 192 4
            ("") ("")
            (some [(("Core"), program.CourseComponent.mk ("Core")
              [program.Course.Course (CourseCode.mk ("COMP".toList) ("1511".toList) 4 4)]
              6 (""))])
            none [])] [])
      (ProgramCode.mk ("3778".toList))
      (SearchPool.mk (some [CourseCode.mk ("COMP".toList) ("1511".toList) 4 4])
        none SearchPoolLevel.CourseCodeOnly)
      (CourseManager.mk [(("COMP1511"),
        course.Course.mk ("Intro") (CourseCode.mk ("COMP".toList) ("1511".toList) 4 4)
          6 ("") 1 none)])
      (program.Program.mk ("T") (ProgramCode.mk ("3778".toList)) 192 4 ("") ("")
        (some [(("Core"), program.CourseComponent.mk ("Core")
          [program.Course.Course (CourseCode.mk ("COMP".toList) ("1511".toList) 4 4)]
          6 (""))])
        none [])
      (CourseCode.mk ("COMP".toList) ("1511".toList) 4 4)).2.2
    rfl rfl
    (Or.inl ⟨(("Core"),
        [program.Course.Course (CourseCode.mk ("COMP".toList) ("1511".toList) 4 4)]),
      List.mem_cons_self _ _,
      program.Course.Course (CourseCode.mk ("COMP".toList) ("1511".toList) 4 4),
      List.mem_cons_self _ _, List.mem_cons_self _ _⟩)).1
    rfl
    (course.Course.mk ("Intro") (CourseCode.mk ("COMP".toList) ("1511".toList) 4 4)
      6 ("") 1 none)
    rfl

end HB
